import Mathlib

/-!
# Load distribution policies of the application gateway configuration builder

A shallow embedding of `pkg/appgw/loaddistributionpolicy.go`:
`LoadDistributionPolicy`, `getLoadDistributionPolicies` and `getTargets`.

Conventions of the embedding.

* A Go `map[string]V` is an association list with unique keys (`GoMap`); a store
  either overwrites the value of a key that is present or adds the key.  The
  order in which `range` visits a map is not fixed by the language: it is a
  parameter (`RangeOrder`), any function that returns a permutation.
* Go's `int` is the 64-bit machine integer; a declared weight is an `Int` and
  `int32(x)` is the two's complement truncation `toInt32`.
* Functions and methods that the file calls but does not define (identifier
  synthesis, the policy store, the backend enumeration) are fields of `Env`.
* The calls made on the policy store and the diagnostics that are logged are
  recorded in a trace of `Event`s, so that "without fetching" can be stated.
* `getLoadDistributionPolicies` has a value receiver: its result records both the copy
  of the builder it works on (`receiver`) and the builder of the caller (`c`), which
  sees the assignment to `c.mem` only when `mem` is held by pointer; the declaration
  of the builder is not in the source, so that is the parameter `memByPointer`.
* `getTargets`, `getLoadDistributionPolicies` and `LoadDistributionPolicy` are the
  calls on a builder whose pointers are populated; `Go.getTargets`,
  `Go.getLoadDistributionPolicies` and `Go.LoadDistributionPolicy` are the same calls
  on a builder whose pointers can be nil, where a dereference can panic, and they
  agree with the former when the pointers are populated
  (`go_LoadDistributionPolicy_populated`).
-/

namespace Appgw

/-! ## Data model -/

/-- Port of a service backend: a name or a number (`networking/v1`). -/
structure ServiceBackendPort where
  Name : String
  Number : Int
  deriving DecidableEq, Repr

/-- Service that a policy target refers to: `target.Backend.Service`. -/
structure ServiceReference where
  Name : String
  Port : ServiceBackendPort
  deriving DecidableEq, Repr

/-- Backend of a policy target: `target.Backend`. -/
structure TargetBackend where
  Service : ServiceReference
  deriving DecidableEq, Repr

/-- Declared target of a policy; `Weight` is a Go `int`. -/
structure Target where
  Weight : Int
  Backend : TargetBackend
  deriving DecidableEq, Repr

/-- Body of a policy resource: `k8sLDP.Spec`. -/
structure LoadDistributionPolicySpec where
  Targets : List Target
  deriving DecidableEq, Repr

/-- Policy resource as the store returns it (`v1.LoadDistributionPolicy`). -/
structure v1.LoadDistributionPolicy where
  Name : String
  Spec : LoadDistributionPolicySpec
  deriving DecidableEq, Repr

/-- Resource that an ingress backend refers to: `backendID.Backend.Resource`. -/
structure TypedLocalObjectReference where
  Kind : String
  Name : String
  deriving DecidableEq, Repr

/-- Ingress backend of a backend identifier: `backendID.Backend`. -/
structure IngressBackend where
  Resource : TypedLocalObjectReference
  deriving DecidableEq, Repr

/-- Key of one backend of the configuration build.  The fields of the key that the
file does not read (the ingress, rule and path the backend comes from) are gathered
in `Origin`. -/
structure backendIdentifier where
  Namespace : String
  Origin : String
  Backend : IngressBackend
  deriving DecidableEq, Repr

/-- Pair of ports resolved for a backend; both are `int32` ports. -/
structure serviceBackendPortPair where
  ServicePort : Int
  BackendPort : Int
  deriving DecidableEq, Repr

/-- Reference to another resource of the gateway by identifier only. -/
structure SubResource where
  ID : String
  deriving DecidableEq, Repr

/-- Target of a gateway policy (`n.ApplicationGatewayLoadDistributionTarget`); the
fields of the embedded properties format are promoted as in Go. -/
structure ApplicationGatewayLoadDistributionTarget where
  Etag : String
  Name : String
  ID : String
  WeightPerServer : Int
  BackendAddressPool : SubResource
  deriving DecidableEq, Repr

/-- Distribution algorithms of the provider. -/
inductive ApplicationGatewayLoadDistributionAlgorithm where
  | RoundRobin
  | LeastConnections
  | IPHash
  deriving DecidableEq, Repr

/-- Policy of the gateway (`n.ApplicationGatewayLoadDistributionPolicy`). -/
structure ApplicationGatewayLoadDistributionPolicy where
  Name : String
  ID : String
  LoadDistributionAlgorithm : ApplicationGatewayLoadDistributionAlgorithm
  LoadDistributionTargets : List ApplicationGatewayLoadDistributionTarget
  deriving DecidableEq, Repr

/-! ## Go maps and the order of `range` -/

/-- Association list standing for a Go `map[string]V`. -/
abbrev GoMap (V : Type) := List (String × V)

/-- Lookup `m[k]` with the presence flag, as in `_, exists := m[k]`. -/
def GoMap.find {V : Type} (m : GoMap V) (k : String) : Option V :=
  match m with
  | [] => none
  | (k0, v0) :: rest => if k0 = k then some v0 else GoMap.find rest k

/-- Presence of a key: the `exists` of `_, exists := m[k]`. -/
def GoMap.has {V : Type} (m : GoMap V) (k : String) : Bool :=
  (GoMap.find m k).isSome

/-- Assignment `m[k] = v`: overwrite the entry of `k`, or add one. -/
def GoMap.store {V : Type} (m : GoMap V) (k : String) (v : V) : GoMap V :=
  match m with
  | [] => [(k, v)]
  | (k0, v0) :: rest =>
    if k0 = k then (k, v) :: rest else (k0, v0) :: GoMap.store rest k v

/-- Keys of a map. -/
def GoMap.keys {V : Type} (m : GoMap V) : List String := m.map Prod.fst

/-- Order in which a `range` over a map visits its entries: any rearrangement. -/
structure RangeOrder where
  shuffle : {α : Type} → List α → List α
  shuffle_perm : ∀ {α : Type} (l : List α), (shuffle l).Perm l

/-- Visit the entries in the order they were added. -/
def RangeOrder.insertion : RangeOrder where
  shuffle := fun l => l
  shuffle_perm := fun l => List.Perm.refl l

/-- Visit the entries in the opposite order. -/
def RangeOrder.reversed : RangeOrder where
  shuffle := fun l => l.reverse
  shuffle_perm := fun l => List.reverse_perm l

/-- Values of a map in the order `range` visits them. -/
def GoMap.rangeValues {V : Type} (o : RangeOrder) (m : GoMap V) : List V :=
  (o.shuffle m).map Prod.snd

/-! ## Machine integers and formatting -/

/-- Conversion `int32(x)` of a Go integer: two's complement truncation. -/
def toInt32 (x : Int) : Int := (x + 2 ^ 31) % 2 ^ 32 - 2 ^ 31

/-- Decimal digits of `n`, most significant first, with `fuel` bounding the length. -/
def decimalDigits : Nat → Nat → List Char
  | 0, _ => []
  | fuel + 1, n =>
    if n < 10 then [Nat.digitChar n]
    else decimalDigits fuel (n / 10) ++ [Nat.digitChar (n % 10)]

/-- Rendering of a non-negative index by `fmt.Sprint`: its decimal numeral. -/
def formatInt (i : Nat) : String := String.mk (decimalDigits (i + 1) i)

/-- Value of a decimal numeral (the inverse of `decimalDigits`). -/
def decimalValue (cs : List Char) : Nat :=
  cs.foldl (fun acc c => acc * 10 + (c.toNat - 48)) 0

/-! ## Collaborators -/

/-- Observable effects of the aggregator on its collaborators. -/
inductive Event where
  | fetch (ns : String) (name : String)
  | logError (msg : String)
  deriving DecidableEq, Repr

/-- Functions that the file calls and does not define, and the order of `range`
over the two maps it builds. -/
structure Env where
  isLDPBackend : backendIdentifier → Bool
  GetLoadDistributionPolicy : String → String → Except String v1.LoadDistributionPolicy
  generateLoadDistributionName : String → String → String
  loadDistributionPolicyID : String → String
  generateAddressPoolName : String → String → Int → String
  AddressPoolID : String → String
  ldpTargetID : String → String → String
  serviceBackendPortToStr : ServiceBackendPort → String
  rangeOrder : RangeOrder

/-! ## State of one configuration build -/

/-- Modelled from the spec: the declaration of the struct `c.mem` is not in the source.
`loadDistributionPolicies` is the pointer of the policy cache (`none` is the nil
pointer, `some []` a cached empty sequence).  `serviceBackendPairsByBackend` is the
map that the pointer dereferenced at line 78 points to, the backend-port resolver of
the specification: this structure is the state of a build in which that pointer has
been populated.  The state in which it is still nil is `Go.Builder`, and the calls
that can stop on a nil dereference are `Go.getTargets` and the functions built on
it. -/
structure memoization where
  loadDistributionPolicies : Option (List ApplicationGatewayLoadDistributionPolicy)
  serviceBackendPairsByBackend : List (backendIdentifier × serviceBackendPortPair)
  deriving DecidableEq, Repr

/-- Gateway document under construction; only the policy list is written here. -/
structure ApplicationGateway where
  LoadDistributionPolicies : Option (List ApplicationGatewayLoadDistributionPolicy)
  deriving DecidableEq, Repr

/-- Builder of one configuration build: the gateway document and the memoized values.
The declaration of the struct is not in the source, so whether the field `mem` is a
struct held by value or a pointer is a parameter, `memByPointer`: a method with a
value receiver works on a copy of the builder, and what it assigns to `c.mem` reaches
the builder of the caller only when `mem` is a pointer. -/
structure appGwConfigBuilder where
  appGw : ApplicationGateway
  mem : memoization
  memByPointer : Bool
  deriving DecidableEq, Repr

/-- Modelled from the spec: the build context is not declared in the source.  Of it
only the backend identifiers that `newBackendIdsFiltered` derives matter, listed in
the order in which the `range` over that set visits them. -/
structure ConfigBuilderContext where
  backendIds : List backendIdentifier
  deriving DecidableEq, Repr

/-- Backend identifiers of the build, in the order the loop visits them. -/
def newBackendIdsFiltered (cbCtx : ConfigBuilderContext) : List backendIdentifier :=
  cbCtx.backendIds

/-- Lookup `serviceBackendPortMap[backendID]`: the zero pair when there is no entry. -/
def lookupPortPair (m : List (backendIdentifier × serviceBackendPortPair))
    (backendID : backendIdentifier) : serviceBackendPortPair :=
  match m with
  | [] => { ServicePort := 0, BackendPort := 0 }
  | (k, v) :: rest => if k = backendID then v else lookupPortPair rest backendID

/-! ## `getTargets` -/

/-- Body of the loop over the declared targets (lines 81 to 102). -/
def getTargetsStep (env : Env) (backendID : backendIdentifier)
    (serviceBackendPortPair : serviceBackendPortPair) (k8sLDP : v1.LoadDistributionPolicy)
    (targetMap : GoMap ApplicationGatewayLoadDistributionTarget)
    (targetIdx : Nat) (target : Target) :
    GoMap ApplicationGatewayLoadDistributionTarget :=
  let weight := toInt32 target.Weight
  if weight < 1 then targetMap
  else
    let backendAddressPoolName :=
      env.generateAddressPoolName
        (backendID.Namespace ++ "-" ++ target.Backend.Service.Name)
        (env.serviceBackendPortToStr target.Backend.Service.Port)
        serviceBackendPortPair.BackendPort
    let backendAddressPoolID := env.AddressPoolID backendAddressPoolName
    let targetName := k8sLDP.Name ++ "-target-" ++ formatInt targetIdx
    let newTarget : ApplicationGatewayLoadDistributionTarget :=
      { Etag := "*"
        Name := targetName
        ID := env.ldpTargetID k8sLDP.Name targetName
        WeightPerServer := weight
        BackendAddressPool := { ID := backendAddressPoolID } }
    GoMap.store targetMap targetName newTarget

/-- Loop over the declared targets from index `targetIdx` on. -/
def getTargetsLoop (env : Env) (backendID : backendIdentifier)
    (serviceBackendPortPair : serviceBackendPortPair) (k8sLDP : v1.LoadDistributionPolicy) :
    List Target → Nat → GoMap ApplicationGatewayLoadDistributionTarget →
    GoMap ApplicationGatewayLoadDistributionTarget
  | [], _, targetMap => targetMap
  | target :: rest, targetIdx, targetMap =>
    getTargetsLoop env backendID serviceBackendPortPair k8sLDP rest (targetIdx + 1)
      (getTargetsStep env backendID serviceBackendPortPair k8sLDP targetMap targetIdx target)

/-- Map of targets after the loop of `getTargets`. -/
def getTargetsMap (env : Env) (c : appGwConfigBuilder) (backendID : backendIdentifier)
    (k8sLDP : v1.LoadDistributionPolicy) : GoMap ApplicationGatewayLoadDistributionTarget :=
  let serviceBackendPortPair := lookupPortPair c.mem.serviceBackendPairsByBackend backendID
  getTargetsLoop env backendID serviceBackendPortPair k8sLDP k8sLDP.Spec.Targets 0 []

/-- Targets of the gateway for the policy attached to a backend. -/
def getTargets (env : Env) (c : appGwConfigBuilder) (backendID : backendIdentifier)
    (k8sLDP : v1.LoadDistributionPolicy) : List ApplicationGatewayLoadDistributionTarget :=
  GoMap.rangeValues env.rangeOrder (getTargetsMap env c backendID k8sLDP)

/-! ## `getLoadDistributionPolicies` -/

/-- State of the loop over the backends: the map of policies and the trace. -/
structure LoopState where
  policies : GoMap ApplicationGatewayLoadDistributionPolicy
  trace : List Event
  deriving DecidableEq, Repr

/-- Body of the loop over the backends (lines 36 to 62). -/
def getLoadDistributionPoliciesStep (env : Env) (c : appGwConfigBuilder)
    (st : LoopState) (backendID : backendIdentifier) : LoopState :=
  if env.isLDPBackend backendID then
    let ldpName := backendID.Backend.Resource.Name
    if GoMap.has st.policies ldpName then st
    else
      match env.GetLoadDistributionPolicy backendID.Namespace backendID.Backend.Resource.Name with
      | Except.error err =>
        { policies := st.policies
          trace := st.trace ++ [Event.fetch backendID.Namespace ldpName, Event.logError err] }
      | Except.ok ldp =>
        let ldpResourceName := env.generateLoadDistributionName backendID.Namespace ldpName
        let ldpResourceID := env.loadDistributionPolicyID ldpResourceName
        let targets := getTargets env c backendID ldp
        let appGWLdp : ApplicationGatewayLoadDistributionPolicy :=
          { Name := ldpResourceName
            ID := ldpResourceID
            LoadDistributionAlgorithm := ApplicationGatewayLoadDistributionAlgorithm.RoundRobin
            LoadDistributionTargets := targets }
        { policies := GoMap.store st.policies ldpName appGWLdp
          trace := st.trace ++ [Event.fetch backendID.Namespace ldpName] }
  else st

/-- Loop over the backends, from a given state. -/
def getLoadDistributionPoliciesLoop (env : Env) (c : appGwConfigBuilder)
    (backends : List backendIdentifier) (st : LoopState) : LoopState :=
  backends.foldl (getLoadDistributionPoliciesStep env c) st

/-- Outcome of `getLoadDistributionPolicies`: the returned sequence `ldps`; `receiver`,
the copy of the builder that the method works on (its value receiver) as it is when
the method returns; `c`, the builder of the caller after the call; and the calls made
on the collaborators. -/
structure PoliciesResult where
  ldps : List ApplicationGatewayLoadDistributionPolicy
  receiver : appGwConfigBuilder
  c : appGwConfigBuilder
  trace : List Event
  deriving DecidableEq, Repr

/-- Policies of the gateway for the backends of the build.  The method has a value
receiver (line 29): the assignment of line 71 sets the cache of the copy `receiver`,
and the builder of the caller sees it only when `mem` is held by pointer. -/
def getLoadDistributionPolicies (env : Env) (c : appGwConfigBuilder)
    (cbCtx : ConfigBuilderContext) : PoliciesResult :=
  match c.mem.loadDistributionPolicies with
  | some cached => { ldps := cached, receiver := c, c := c, trace := [] }
  | none =>
    let st := getLoadDistributionPoliciesLoop env c (newBackendIdsFiltered cbCtx)
      { policies := [], trace := [] }
    let appGwLoadDistributionPolicies := GoMap.rangeValues env.rangeOrder st.policies
    let receiver : appGwConfigBuilder :=
      { c with mem := { c.mem with
          loadDistributionPolicies := some appGwLoadDistributionPolicies } }
    { ldps := appGwLoadDistributionPolicies
      receiver := receiver
      c := if c.memByPointer then receiver else c
      trace := st.trace }

/-! ## `LoadDistributionPolicy` -/

/-- Modelled from the spec: `sorter.ByLoadDistributionPolicyName` is not in the
source; the sequence is sorted by policy name, ascending. -/
def sortByLoadDistributionPolicyName (ldps : List ApplicationGatewayLoadDistributionPolicy) :
    List ApplicationGatewayLoadDistributionPolicy :=
  List.insertionSort (fun a b => a.Name ≤ b.Name) ldps

/-- Outcome of `LoadDistributionPolicy`: the returned error (`none` is nil), the
builder after the call and the calls made on the collaborators. -/
structure BuildResult where
  err : Option String
  c : appGwConfigBuilder
  trace : List Event
  deriving DecidableEq, Repr

/-- Build step that writes the policies into the gateway document, on a builder whose
pointers are populated (`Go.LoadDistributionPolicy` is the call on a builder whose
pointers can be nil).  The method has a pointer receiver, so line 25 writes the
builder of the caller.  The sort of line 23 is in place: when the builder of the
caller holds a cached sequence, that sequence is the one just returned, it shares its
array with `ldps` and reads sorted afterwards; when the cache of the caller is nil it
stays nil. -/
def LoadDistributionPolicy (env : Env) (c : appGwConfigBuilder)
    (cbCtx : ConfigBuilderContext) : BuildResult :=
  let r := getLoadDistributionPolicies env c cbCtx
  let ldps :=
    match r.ldps with
    | [] => r.ldps
    | _ :: _ => sortByLoadDistributionPolicyName r.ldps
  { err := none
    c := { r.c with
           appGw := { LoadDistributionPolicies := some ldps }
           mem := { r.c.mem with
             loadDistributionPolicies := r.c.mem.loadDistributionPolicies.map (fun _ => ldps) } }
    trace := r.trace }

/-! ## Auxiliary definitions -/

/-- Name synthesized for the target declared at index `targetIdx` (line 89). -/
def targetNameAt (k8sLDP : v1.LoadDistributionPolicy) (targetIdx : Nat) : String :=
  k8sLDP.Name ++ "-target-" ++ formatInt targetIdx

/-- Target built for the declaration at index `targetIdx` (lines 87 to 100). -/
def newTargetAt (env : Env) (backendID : backendIdentifier)
    (serviceBackendPortPair : serviceBackendPortPair) (k8sLDP : v1.LoadDistributionPolicy)
    (targetIdx : Nat) (target : Target) : ApplicationGatewayLoadDistributionTarget :=
  { Etag := "*"
    Name := targetNameAt k8sLDP targetIdx
    ID := env.ldpTargetID k8sLDP.Name (targetNameAt k8sLDP targetIdx)
    WeightPerServer := toInt32 target.Weight
    BackendAddressPool :=
      { ID := env.AddressPoolID
          (env.generateAddressPoolName
            (backendID.Namespace ++ "-" ++ target.Backend.Service.Name)
            (env.serviceBackendPortToStr target.Backend.Service.Port)
            serviceBackendPortPair.BackendPort) } }

/-- Entries of the target map that the declarations from index `targetIdx` on add:
one per declaration whose converted weight is at least 1, in declaration order. -/
def keptEntries (env : Env) (backendID : backendIdentifier)
    (serviceBackendPortPair : serviceBackendPortPair) (k8sLDP : v1.LoadDistributionPolicy) :
    List Target → Nat → GoMap ApplicationGatewayLoadDistributionTarget
  | [], _ => []
  | target :: rest, targetIdx =>
    if toInt32 target.Weight < 1 then
      keptEntries env backendID serviceBackendPortPair k8sLDP rest (targetIdx + 1)
    else
      (targetNameAt k8sLDP targetIdx,
        newTargetAt env backendID serviceBackendPortPair k8sLDP targetIdx target) ::
        keptEntries env backendID serviceBackendPortPair k8sLDP rest (targetIdx + 1)

/-- Policy built for a backend and the policy fetched for it (lines 49 to 59). -/
def buildPolicy (env : Env) (c : appGwConfigBuilder) (backendID : backendIdentifier)
    (ldp : v1.LoadDistributionPolicy) : ApplicationGatewayLoadDistributionPolicy :=
  { Name := env.generateLoadDistributionName backendID.Namespace backendID.Backend.Resource.Name
    ID := env.loadDistributionPolicyID
      (env.generateLoadDistributionName backendID.Namespace backendID.Backend.Resource.Name)
    LoadDistributionAlgorithm := ApplicationGatewayLoadDistributionAlgorithm.RoundRobin
    LoadDistributionTargets := getTargets env c backendID ldp }

/-- First backend of the list, in processing order, that is policy-bound, references
the bare policy name `ldpName` and whose fetch succeeds, with the fetched policy. -/
def firstWinner (env : Env) (backends : List backendIdentifier) (ldpName : String) :
    Option (backendIdentifier × v1.LoadDistributionPolicy) :=
  match backends with
  | [] => none
  | b :: rest =>
    if env.isLDPBackend b = true ∧ b.Backend.Resource.Name = ldpName then
      match env.GetLoadDistributionPolicy b.Namespace ldpName with
      | Except.ok ldp => some (b, ldp)
      | Except.error _ => firstWinner env rest ldpName
    else firstWinner env rest ldpName

/-- State of the loop before the first backend. -/
def LoopState.initial : LoopState := { policies := [], trace := [] }

/-! ## A sample build -/

/-- Sample policy of namespace `ns1`: the scenario of the specification. -/
def samplePolicyNs1 : v1.LoadDistributionPolicy :=
  { Name := "ldp1"
    Spec := { Targets := [
      { Weight := 3
        Backend := { Service := { Name := "svcA", Port := { Name := "", Number := 80 } } } },
      { Weight := 0
        Backend := { Service := { Name := "svcB", Port := { Name := "", Number := 80 } } } }] } }

/-- Sample policy of namespace `ns2` that has the same bare name. -/
def samplePolicyNs2 : v1.LoadDistributionPolicy :=
  { Name := "ldp1"
    Spec := { Targets := [
      { Weight := 5
        Backend := { Service := { Name := "svcC", Port := { Name := "", Number := 80 } } } }] } }

/-- Sample policy without declared targets. -/
def samplePolicyEmpty (name : String) : v1.LoadDistributionPolicy :=
  { Name := name, Spec := { Targets := [] } }

/-- Sample policy store: three policies, every other fetch is an error. -/
def sampleStore (ns name : String) : Except String v1.LoadDistributionPolicy :=
  if ns = "ns1" ∧ name = "ldp1" then Except.ok samplePolicyNs1
  else if ns = "ns2" ∧ name = "ldp1" then Except.ok samplePolicyNs2
  else if ns = "ns1" ∧ name = "ldp0" then Except.ok (samplePolicyEmpty "ldp0")
  else Except.error "not found"

/-- Modelled from the spec: the name and identifier synthesizers, the policy store
and the predicate of a policy-bound backend are not in the source; the specification
describes the synthesizers as deterministic pure functions of their arguments.  This
sample instance joins the parts with fixed separators, which keeps apart the names of
the backends used in the concrete instances below; nothing is proved from its
particular form. -/
def sampleEnv (o : RangeOrder) : Env where
  isLDPBackend := fun b => b.Backend.Resource.Kind == "LoadDistributionPolicy"
  GetLoadDistributionPolicy := sampleStore
  generateLoadDistributionName := fun ns name => "ldp-" ++ ns ++ "-" ++ name
  loadDistributionPolicyID := fun name => "/loadDistributionPolicies/" ++ name
  generateAddressPoolName := fun svc port backendPort =>
    "pool-" ++ svc ++ "-" ++ port ++ "-bp-" ++ formatInt backendPort.toNat
  AddressPoolID := fun name => "/backendAddressPools/" ++ name
  ldpTargetID := fun ldp target => "/loadDistributionPolicies/" ++ ldp ++ "/targets/" ++ target
  serviceBackendPortToStr := fun p => if p.Name = "" then formatInt p.Number.toNat else p.Name
  rangeOrder := o

/-- Sample collaborators whose policy store fails on every fetch. -/
def failingEnv (o : RangeOrder) : Env :=
  { sampleEnv o with GetLoadDistributionPolicy := fun _ _ => Except.error "unavailable" }

/-- Backend of the ingress `origin` bound to the policy `name` of the namespace `ns`. -/
def sampleBackendOf (origin ns name : String) : backendIdentifier :=
  { Namespace := ns
    Origin := origin
    Backend := { Resource := { Kind := "LoadDistributionPolicy", Name := name } } }

/-- Backend of the first ingress bound to the policy `name` of the namespace `ns`. -/
def sampleBackend (ns name : String) : backendIdentifier :=
  sampleBackendOf "ingress-1" ns name

/-- Backend that is not bound to a policy. -/
def sampleServiceBackend (ns name : String) : backendIdentifier :=
  { Namespace := ns
    Origin := "ingress-1"
    Backend := { Resource := { Kind := "Service", Name := name } } }

/-- Builder at the start of a build: nothing cached, one resolved port, `mem` held by
value. -/
def sampleBuilder : appGwConfigBuilder :=
  { appGw := { LoadDistributionPolicies := none }
    mem := { loadDistributionPolicies := none
             serviceBackendPairsByBackend :=
               [(sampleBackend "ns1" "ldp1", { ServicePort := 80, BackendPort := 8080 })] }
    memByPointer := false }

/-- The sample builder with `mem` held by pointer. -/
def sampleBuilderByPointer : appGwConfigBuilder :=
  { sampleBuilder with memByPointer := true }

/-- Sample policy with two targets of valid weight. -/
def samplePolicyTwoTargets : v1.LoadDistributionPolicy :=
  { Name := "ldp2"
    Spec := { Targets := [
      { Weight := 1
        Backend := { Service := { Name := "svcA", Port := { Name := "", Number := 80 } } } },
      { Weight := 2
        Backend := { Service := { Name := "svcB", Port := { Name := "", Number := 80 } } } }] } }

/-- Sample collaborators whose store holds the policy with two valid targets. -/
def twoTargetEnv (o : RangeOrder) : Env :=
  { sampleEnv o with
    GetLoadDistributionPolicy := fun ns name =>
      if ns = "ns1" ∧ name = "ldp2" then Except.ok samplePolicyTwoTargets
      else Except.error "not found" }

/-- Success of the fetch of the policy that a backend references. -/
def fetchSucceeds (env : Env) (b : backendIdentifier) : Bool :=
  match env.GetLoadDistributionPolicy b.Namespace b.Backend.Resource.Name with
  | Except.ok _ => true
  | Except.error _ => false

/-- Two policies of the gateway that agree up to the order of their targets. -/
def PolicyRel (p1 p2 : ApplicationGatewayLoadDistributionPolicy) : Prop :=
  p1.Name = p2.Name ∧ p1.ID = p2.ID ∧
    p1.LoadDistributionAlgorithm = p2.LoadDistributionAlgorithm ∧
    p1.LoadDistributionTargets.Perm p2.LoadDistributionTargets

/-- Two entries of a policy map with the same key and policies that agree up to the
order of their targets. -/
def EntryRel (e1 e2 : String × ApplicationGatewayLoadDistributionPolicy) : Prop :=
  e1.1 = e2.1 ∧ PolicyRel e1.2 e2.2

/-- Modelled from the spec: `generateLoadDistributionName` is not in the source; the
specification says that only one namespace/name pair ever produces a given synthesized
name.  That property, for the policy-bound backends of a backend set: two of them whose
synthesized names are equal have the same namespace and the same policy name. -/
def synthesizedNamesDistinct (env : Env) (backends : List backendIdentifier) : Prop :=
  ∀ b1 ∈ backends, ∀ b2 ∈ backends,
    env.isLDPBackend b1 = true → env.isLDPBackend b2 = true →
    env.generateLoadDistributionName b1.Namespace b1.Backend.Resource.Name =
      env.generateLoadDistributionName b2.Namespace b2.Backend.Resource.Name →
    b1.Namespace = b2.Namespace ∧ b1.Backend.Resource.Name = b2.Backend.Resource.Name

/-! ## The calls on a builder whose pointers can be nil -/

/-- Nil dereference that stops a call with a run-time panic: of the pointer to the port
map at line 78, or of the pointer to the object written at line 25. -/
inductive Panic where
  | nilPortMap
  | nilProperties
  deriving DecidableEq, Repr

/-- Builder as the code reaches it through pointers, each of which can be nil (`none`):
`properties` is the object whose field `LoadDistributionPolicies` line 25 assigns
(the declaration of `c.appGw` is not in the source; in the SDK the properties of a
resource are behind an embedded pointer, as at line 55), `loadDistributionPolicies` is
the pointer of the policy cache tested at line 31, `serviceBackendPairsByBackend` the
pointer to the port map dereferenced at line 78, and `memByPointer` tells whether
`mem` itself is held by pointer. -/
structure Go.Builder where
  properties : Option ApplicationGateway
  loadDistributionPolicies : Option (List ApplicationGatewayLoadDistributionPolicy)
  serviceBackendPairsByBackend : Option (List (backendIdentifier × serviceBackendPortPair))
  memByPointer : Bool
  deriving DecidableEq, Repr

/-- Builder whose pointers are populated, as the code reaches it. -/
def appGwConfigBuilder.toGo (c : appGwConfigBuilder) : Go.Builder :=
  { properties := some c.appGw
    loadDistributionPolicies := c.mem.loadDistributionPolicies
    serviceBackendPairsByBackend := some c.mem.serviceBackendPairsByBackend
    memByPointer := c.memByPointer }

/-- Targets of the gateway for a policy: `getTargets` with the dereference of line 78,
which panics on a nil pointer before anything else is done. -/
def Go.getTargets (env : Env) (s : Go.Builder) (backendID : backendIdentifier)
    (k8sLDP : v1.LoadDistributionPolicy) :
    Except Panic (List ApplicationGatewayLoadDistributionTarget) :=
  match s.serviceBackendPairsByBackend with
  | none => Except.error Panic.nilPortMap
  | some serviceBackendPortMap =>
    let serviceBackendPortPair := lookupPortPair serviceBackendPortMap backendID
    Except.ok (GoMap.rangeValues env.rangeOrder
      (getTargetsLoop env backendID serviceBackendPortPair k8sLDP k8sLDP.Spec.Targets 0 []))

/-- Body of the loop over the backends (lines 36 to 62), with the panic of the call of
`getTargets`. -/
def Go.step (env : Env) (s : Go.Builder) (st : LoopState) (backendID : backendIdentifier) :
    Except Panic LoopState :=
  if env.isLDPBackend backendID then
    let ldpName := backendID.Backend.Resource.Name
    if GoMap.has st.policies ldpName then Except.ok st
    else
      match env.GetLoadDistributionPolicy backendID.Namespace backendID.Backend.Resource.Name with
      | Except.error err =>
        Except.ok
          { policies := st.policies
            trace := st.trace ++ [Event.fetch backendID.Namespace ldpName, Event.logError err] }
      | Except.ok ldp =>
        let ldpResourceName := env.generateLoadDistributionName backendID.Namespace ldpName
        let ldpResourceID := env.loadDistributionPolicyID ldpResourceName
        match Go.getTargets env s backendID ldp with
        | Except.error p => Except.error p
        | Except.ok targets =>
          let appGWLdp : ApplicationGatewayLoadDistributionPolicy :=
            { Name := ldpResourceName
              ID := ldpResourceID
              LoadDistributionAlgorithm := ApplicationGatewayLoadDistributionAlgorithm.RoundRobin
              LoadDistributionTargets := targets }
          Except.ok
            { policies := GoMap.store st.policies ldpName appGWLdp
              trace := st.trace ++ [Event.fetch backendID.Namespace ldpName] }
  else Except.ok st

/-- Loop over the backends, from a given state; a panic ends it. -/
def Go.loop (env : Env) (s : Go.Builder) :
    List backendIdentifier → LoopState → Except Panic LoopState
  | [], st => Except.ok st
  | backendID :: rest, st =>
    match Go.step env s st backendID with
    | Except.error p => Except.error p
    | Except.ok st1 => Go.loop env s rest st1

/-- Outcome of `getLoadDistributionPolicies` when it returns: as `PoliciesResult`. -/
structure Go.PoliciesResult where
  ldps : List ApplicationGatewayLoadDistributionPolicy
  receiver : Go.Builder
  s : Go.Builder
  trace : List Event
  deriving DecidableEq, Repr

/-- Policies of the gateway for the backends of the build, on a builder whose pointers
can be nil. -/
def Go.getLoadDistributionPolicies (env : Env) (s : Go.Builder)
    (cbCtx : ConfigBuilderContext) : Except Panic Go.PoliciesResult :=
  match s.loadDistributionPolicies with
  | some cached => Except.ok { ldps := cached, receiver := s, s := s, trace := [] }
  | none =>
    match Go.loop env s (newBackendIdsFiltered cbCtx) { policies := [], trace := [] } with
    | Except.error p => Except.error p
    | Except.ok st =>
      let appGwLoadDistributionPolicies := GoMap.rangeValues env.rangeOrder st.policies
      let receiver : Go.Builder :=
        { s with loadDistributionPolicies := some appGwLoadDistributionPolicies }
      Except.ok
        { ldps := appGwLoadDistributionPolicies
          receiver := receiver
          s := if s.memByPointer then receiver else s
          trace := st.trace }

/-- Outcome of `LoadDistributionPolicy` when it returns: the returned error (`none` is
nil), the builder of the caller after the call and the calls made. -/
structure Go.BuildResult where
  err : Option String
  s : Go.Builder
  trace : List Event
  deriving DecidableEq, Repr

/-- Build step that writes the policies into the gateway document, on a builder whose
pointers can be nil: the call of line 21 can panic at line 78, and the assignment of
line 25 panics when the object it writes is behind a nil pointer. -/
def Go.LoadDistributionPolicy (env : Env) (s : Go.Builder)
    (cbCtx : ConfigBuilderContext) : Except Panic Go.BuildResult :=
  match Go.getLoadDistributionPolicies env s cbCtx with
  | Except.error p => Except.error p
  | Except.ok r =>
    let ldps :=
      match r.ldps with
      | [] => r.ldps
      | _ :: _ => sortByLoadDistributionPolicyName r.ldps
    match r.s.properties with
    | none => Except.error Panic.nilProperties
    | some _ =>
      Except.ok
        { err := none
          s := { r.s with
                 properties := some { LoadDistributionPolicies := some ldps }
                 loadDistributionPolicies := r.s.loadDistributionPolicies.map (fun _ => ldps) }
          trace := r.trace }

/-- Sample builder whose pointer to the port map is nil. -/
def sampleBuilderNilPortMap : Go.Builder :=
  { properties := some { LoadDistributionPolicies := none }
    loadDistributionPolicies := none
    serviceBackendPairsByBackend := none
    memByPointer := false }

/-- Sample builder whose object written at line 25 is behind a nil pointer. -/
def sampleBuilderNilProperties : Go.Builder :=
  { properties := none
    loadDistributionPolicies := none
    serviceBackendPairsByBackend := some []
    memByPointer := false }

/-! ## Lemmas on Go maps -/

theorem GoMap.has_iff_mem_keys {V : Type} (m : GoMap V) (k : String) :
    GoMap.has m k = true ↔ k ∈ GoMap.keys m := by
  induction m with
  | nil => simp [GoMap.has, GoMap.find, GoMap.keys]
  | cons e rest ih =>
    obtain ⟨k0, v0⟩ := e
    by_cases h : k0 = k
    · simp [GoMap.has, GoMap.find, GoMap.keys, h]
    · have h2 : ¬ k = k0 := fun e => h e.symm
      simpa [GoMap.has, GoMap.find, GoMap.keys, h, h2] using ih

theorem GoMap.find_eq_none_iff {V : Type} (m : GoMap V) (k : String) :
    GoMap.find m k = none ↔ k ∉ GoMap.keys m := by
  rw [← GoMap.has_iff_mem_keys]
  cases h : GoMap.find m k <;> simp [GoMap.has, h]

theorem GoMap.store_of_not_mem {V : Type} (m : GoMap V) (k : String) (v : V)
    (h : k ∉ GoMap.keys m) : GoMap.store m k v = m ++ [(k, v)] := by
  induction m with
  | nil => rfl
  | cons e rest ih =>
    obtain ⟨k0, v0⟩ := e
    have h0 : ¬ k0 = k := fun e => h (by simp [GoMap.keys, e])
    have h1 : k ∉ GoMap.keys rest := fun e => h (by
      simp only [GoMap.keys, List.map_cons, List.mem_cons]; exact Or.inr e)
    simp [GoMap.store, h0, ih h1]

theorem GoMap.find_store_same {V : Type} (m : GoMap V) (k : String) (v : V) :
    GoMap.find (GoMap.store m k v) k = some v := by
  induction m with
  | nil => simp [GoMap.store, GoMap.find]
  | cons e rest ih =>
    obtain ⟨k0, v0⟩ := e
    by_cases h : k0 = k
    · simp [GoMap.store, GoMap.find, h]
    · simp [GoMap.store, GoMap.find, h, ih]

theorem GoMap.find_store_ne {V : Type} (m : GoMap V) (k k1 : String) (v : V)
    (h : k ≠ k1) : GoMap.find (GoMap.store m k v) k1 = GoMap.find m k1 := by
  induction m with
  | nil => simp [GoMap.store, GoMap.find, h]
  | cons e rest ih =>
    obtain ⟨k0, v0⟩ := e
    by_cases h0 : k0 = k
    · subst h0
      simp [GoMap.store, GoMap.find, h]
    · by_cases h1 : k0 = k1
      · subst h1
        simp [GoMap.store, GoMap.find, h0]
      · simp [GoMap.store, GoMap.find, h0, h1, ih]

theorem GoMap.find_append_single {V : Type} (m : GoMap V) (k k1 : String) (v : V) :
    GoMap.find (m ++ [(k, v)]) k1 =
      (GoMap.find m k1).orElse (fun _ => if k = k1 then some v else none) := by
  induction m with
  | nil => simp [GoMap.find]
  | cons e rest ih =>
    obtain ⟨k0, v0⟩ := e
    by_cases h0 : k0 = k1
    · simp [GoMap.find, h0]
    · simp [GoMap.find, h0, ih]

theorem GoMap.mem_of_find {V : Type} (m : GoMap V) (k : String) (v : V)
    (h : GoMap.find m k = some v) : (k, v) ∈ m := by
  induction m with
  | nil => simp [GoMap.find] at h
  | cons e rest ih =>
    obtain ⟨k0, v0⟩ := e
    by_cases h0 : k0 = k
    · simp [GoMap.find, h0] at h
      simp [h0, h]
    · simp [GoMap.find, h0] at h
      exact List.mem_cons_of_mem _ (ih h)

theorem GoMap.find_of_mem {V : Type} (m : GoMap V) (k : String) (v : V)
    (hn : (GoMap.keys m).Nodup) (h : (k, v) ∈ m) : GoMap.find m k = some v := by
  induction m with
  | nil => simp at h
  | cons e rest ih =>
    obtain ⟨k0, v0⟩ := e
    simp only [GoMap.keys, List.map_cons, List.nodup_cons] at hn
    rcases List.mem_cons.1 h with h1 | h1
    · cases h1
      simp [GoMap.find]
    · have hk : k ∈ List.map Prod.fst rest := List.mem_map.2 ⟨(k, v), h1, rfl⟩
      have h0 : ¬ k0 = k := fun e => hn.1 (e ▸ hk)
      simp only [GoMap.find, h0, if_false]
      exact ih hn.2 h1

theorem GoMap.rangeValues_perm {V : Type} (o : RangeOrder) (m : GoMap V) :
    (GoMap.rangeValues o m).Perm (m.map Prod.snd) :=
  (o.shuffle_perm m).map Prod.snd

theorem GoMap.mem_rangeValues {V : Type} (o : RangeOrder) (m : GoMap V) (v : V) :
    v ∈ GoMap.rangeValues o m ↔ ∃ k, (k, v) ∈ m := by
  rw [(GoMap.rangeValues_perm o m).mem_iff]
  simp

/-! ## Decimal rendering is injective -/

theorem digitChar_value (d : Nat) (h : d < 10) : (Nat.digitChar d).toNat - 48 = d := by
  interval_cases d <;> rfl

theorem decimalValue_snoc (cs : List Char) (c : Char) :
    decimalValue (cs ++ [c]) = decimalValue cs * 10 + (c.toNat - 48) := by
  simp [decimalValue, List.foldl_append]

theorem decimalValue_decimalDigits (fuel n : Nat) (h : n < fuel) :
    decimalValue (decimalDigits fuel n) = n := by
  induction fuel generalizing n with
  | zero => omega
  | succ fuel ih =>
    unfold decimalDigits
    by_cases h10 : n < 10
    · simp [h10, decimalValue, digitChar_value n h10]
    · rw [if_neg h10, decimalValue_snoc, ih (n / 10) (by omega),
        digitChar_value (n % 10) (Nat.mod_lt n (by decide))]
      omega

theorem formatInt_injective (i j : Nat) (h : formatInt i = formatInt j) : i = j := by
  have h1 : decimalDigits (i + 1) i = decimalDigits (j + 1) j :=
    congrArg String.data h
  have h2 := congrArg decimalValue h1
  rwa [decimalValue_decimalDigits _ _ (Nat.lt_succ_self i),
    decimalValue_decimalDigits _ _ (Nat.lt_succ_self j)] at h2

theorem targetNameAt_injective (k8sLDP : v1.LoadDistributionPolicy) (i j : Nat)
    (h : targetNameAt k8sLDP i = targetNameAt k8sLDP j) : i = j := by
  apply formatInt_injective
  have h1 := congrArg String.data h
  simp only [targetNameAt, String.data_append, List.append_cancel_left_eq] at h1
  exact String.ext h1

/-! ## Lemmas on `getTargets` -/

theorem getTargetsStep_eq (env : Env) (backendID : backendIdentifier)
    (pair : serviceBackendPortPair) (k8sLDP : v1.LoadDistributionPolicy)
    (m : GoMap ApplicationGatewayLoadDistributionTarget) (i : Nat) (t : Target) :
    getTargetsStep env backendID pair k8sLDP m i t =
      if toInt32 t.Weight < 1 then m
      else GoMap.store m (targetNameAt k8sLDP i) (newTargetAt env backendID pair k8sLDP i t) :=
  rfl

theorem mem_keptEntries (env : Env) (backendID : backendIdentifier)
    (pair : serviceBackendPortPair) (k8sLDP : v1.LoadDistributionPolicy)
    (ts : List Target) (i : Nat) (e : String × ApplicationGatewayLoadDistributionTarget) :
    e ∈ keptEntries env backendID pair k8sLDP ts i ↔
      ∃ j t, ts.get? j = some t ∧ 1 ≤ toInt32 t.Weight ∧
        e = (targetNameAt k8sLDP (i + j), newTargetAt env backendID pair k8sLDP (i + j) t) := by
  induction ts generalizing i with
  | nil => simp [keptEntries]
  | cons t rest ih =>
    unfold keptEntries
    by_cases hw : toInt32 t.Weight < 1
    · rw [if_pos hw, ih]
      constructor
      · rintro ⟨j, t1, h1, h2, h3⟩
        exact ⟨j + 1, t1, by simpa using h1, h2, by rw [h3]; congr 2 <;> omega⟩
      · rintro ⟨j, t1, h1, h2, h3⟩
        cases j with
        | zero =>
          simp at h1
          subst h1
          omega
        | succ j =>
          exact ⟨j, t1, by simpa using h1, h2, by rw [h3]; congr 2 <;> omega⟩
    · rw [if_neg hw, List.mem_cons, ih]
      constructor
      · rintro (h | ⟨j, t1, h1, h2, h3⟩)
        · exact ⟨0, t, by simp, by omega, by simpa using h⟩
        · exact ⟨j + 1, t1, by simpa using h1, h2, by rw [h3]; congr 2 <;> omega⟩
      · rintro ⟨j, t1, h1, h2, h3⟩
        cases j with
        | zero =>
          simp at h1
          subst h1
          exact Or.inl (by simpa using h3)
        | succ j =>
          exact Or.inr ⟨j, t1, by simpa using h1, h2, by rw [h3]; congr 2 <;> omega⟩

theorem keys_keptEntries_ge (env : Env) (backendID : backendIdentifier)
    (pair : serviceBackendPortPair) (k8sLDP : v1.LoadDistributionPolicy)
    (ts : List Target) (i : Nat) (k : String)
    (h : k ∈ GoMap.keys (keptEntries env backendID pair k8sLDP ts i)) :
    ∃ j, i ≤ j ∧ k = targetNameAt k8sLDP j := by
  obtain ⟨e, he, rfl⟩ := List.mem_map.1 h
  obtain ⟨j, t, _, _, h3⟩ := (mem_keptEntries env backendID pair k8sLDP ts i e).1 he
  exact ⟨i + j, by omega, by rw [h3]⟩

theorem nodup_keys_keptEntries (env : Env) (backendID : backendIdentifier)
    (pair : serviceBackendPortPair) (k8sLDP : v1.LoadDistributionPolicy)
    (ts : List Target) (i : Nat) :
    (GoMap.keys (keptEntries env backendID pair k8sLDP ts i)).Nodup := by
  induction ts generalizing i with
  | nil => simp [keptEntries, GoMap.keys]
  | cons t rest ih =>
    unfold keptEntries
    by_cases hw : toInt32 t.Weight < 1
    · rw [if_pos hw]; exact ih (i + 1)
    · rw [if_neg hw]
      simp only [GoMap.keys, List.map_cons, List.nodup_cons]
      refine ⟨fun hmem => ?_, ih (i + 1)⟩
      obtain ⟨j, hj, hk⟩ := keys_keptEntries_ge env backendID pair k8sLDP rest (i + 1) _ hmem
      have := targetNameAt_injective k8sLDP _ _ hk
      omega

theorem getTargetsLoop_eq (env : Env) (backendID : backendIdentifier)
    (pair : serviceBackendPortPair) (k8sLDP : v1.LoadDistributionPolicy)
    (ts : List Target) (i : Nat) (m : GoMap ApplicationGatewayLoadDistributionTarget)
    (hm : ∀ k ∈ GoMap.keys m, ∃ j, j < i ∧ k = targetNameAt k8sLDP j) :
    getTargetsLoop env backendID pair k8sLDP ts i m =
      m ++ keptEntries env backendID pair k8sLDP ts i := by
  induction ts generalizing i m with
  | nil => simp [getTargetsLoop, keptEntries]
  | cons t rest ih =>
    unfold getTargetsLoop keptEntries
    rw [getTargetsStep_eq]
    by_cases hw : toInt32 t.Weight < 1
    · rw [if_pos hw, if_pos hw]
      exact ih (i + 1) m (fun k hk => by
        obtain ⟨j, hj, e⟩ := hm k hk
        exact ⟨j, by omega, e⟩)
    · rw [if_neg hw, if_neg hw]
      have hnot : targetNameAt k8sLDP i ∉ GoMap.keys m := fun hk => by
        obtain ⟨j, hj, e⟩ := hm _ hk
        have := targetNameAt_injective k8sLDP _ _ e
        omega
      rw [GoMap.store_of_not_mem m _ _ hnot, ih (i + 1)]
      · simp
      · intro k hk
        simp only [GoMap.keys, List.map_append, List.map_cons, List.map_nil,
          List.mem_append, List.mem_singleton] at hk
        rcases hk with hk | hk
        · obtain ⟨j, hj, e⟩ := hm k hk
          exact ⟨j, by omega, e⟩
        · exact ⟨i, by omega, hk⟩

theorem getTargetsMap_eq (env : Env) (c : appGwConfigBuilder) (backendID : backendIdentifier)
    (k8sLDP : v1.LoadDistributionPolicy) :
    getTargetsMap env c backendID k8sLDP =
      keptEntries env backendID (lookupPortPair c.mem.serviceBackendPairsByBackend backendID)
        k8sLDP k8sLDP.Spec.Targets 0 := by
  unfold getTargetsMap
  simp only []
  rw [getTargetsLoop_eq _ _ _ _ _ _ _ (by simp [GoMap.keys])]
  simp

theorem RangeOrder.shuffle_nil (o : RangeOrder) {α : Type} : o.shuffle ([] : List α) = [] :=
  List.perm_nil.1 (o.shuffle_perm [])

theorem RangeOrder.shuffle_singleton (o : RangeOrder) {α : Type} (a : α) :
    o.shuffle [a] = [a] :=
  List.perm_singleton.1 (o.shuffle_perm [a])

theorem getTargets_perm (env : Env) (c : appGwConfigBuilder) (backendID : backendIdentifier)
    (k8sLDP : v1.LoadDistributionPolicy) :
    (getTargets env c backendID k8sLDP).Perm
      ((keptEntries env backendID (lookupPortPair c.mem.serviceBackendPairsByBackend backendID)
        k8sLDP k8sLDP.Spec.Targets 0).map Prod.snd) := by
  unfold getTargets
  rw [getTargetsMap_eq]
  exact GoMap.rangeValues_perm _ _

theorem mem_getTargets (env : Env) (c : appGwConfigBuilder) (backendID : backendIdentifier)
    (k8sLDP : v1.LoadDistributionPolicy) (out : ApplicationGatewayLoadDistributionTarget) :
    out ∈ getTargets env c backendID k8sLDP ↔
      ∃ i t, k8sLDP.Spec.Targets.get? i = some t ∧ 1 ≤ toInt32 t.Weight ∧
        out = newTargetAt env backendID
          (lookupPortPair c.mem.serviceBackendPairsByBackend backendID) k8sLDP i t := by
  rw [(getTargets_perm env c backendID k8sLDP).mem_iff, List.mem_map]
  constructor
  · rintro ⟨e, he, rfl⟩
    obtain ⟨j, t, h1, h2, h3⟩ := (mem_keptEntries _ _ _ _ _ _ _).1 he
    exact ⟨j, t, h1, h2, by rw [h3]; simp⟩
  · rintro ⟨i, t, h1, h2, rfl⟩
    exact ⟨_, (mem_keptEntries _ _ _ _ _ _ _).2 ⟨i, t, h1, h2, rfl⟩, by simp⟩

theorem names_keptEntries (env : Env) (backendID : backendIdentifier)
    (pair : serviceBackendPortPair) (k8sLDP : v1.LoadDistributionPolicy)
    (ts : List Target) (i : Nat) :
    ((keptEntries env backendID pair k8sLDP ts i).map Prod.snd).map (fun t => t.Name) =
      GoMap.keys (keptEntries env backendID pair k8sLDP ts i) := by
  induction ts generalizing i with
  | nil => simp [keptEntries, GoMap.keys]
  | cons t rest ih =>
    unfold keptEntries
    by_cases hw : toInt32 t.Weight < 1
    · rw [if_pos hw]; exact ih (i + 1)
    · rw [if_neg hw]
      have := ih (i + 1)
      simp only [GoMap.keys] at this
      simp [GoMap.keys, newTargetAt, this]

theorem getTargets_names_nodup (env : Env) (c : appGwConfigBuilder)
    (backendID : backendIdentifier) (k8sLDP : v1.LoadDistributionPolicy) :
    ((getTargets env c backendID k8sLDP).map (fun t => t.Name)).Nodup := by
  rw [((getTargets_perm env c backendID k8sLDP).map _).nodup_iff, names_keptEntries]
  exact nodup_keys_keptEntries _ _ _ _ _ _

/-! ## Claims on `getTargets` -/

/-- Weight filter of `getTargets` on the converted weight: the declaration at index
`i` yields no target named after `i` when its weight converted to `int32` is below 1,
and exactly one otherwise. -/
theorem getTargets_count_name (env : Env) (c : appGwConfigBuilder)
    (backendID : backendIdentifier) (k8sLDP : v1.LoadDistributionPolicy)
    (i : Nat) (t : Target) (ht : k8sLDP.Spec.Targets.get? i = some t) :
    (toInt32 t.Weight < 1 →
      ((getTargets env c backendID k8sLDP).map (fun o => o.Name)).count
        (k8sLDP.Name ++ "-target-" ++ formatInt i) = 0) ∧
    (1 ≤ toInt32 t.Weight →
      ((getTargets env c backendID k8sLDP).map (fun o => o.Name)).count
        (k8sLDP.Name ++ "-target-" ++ formatInt i) = 1) := by
  constructor
  · intro hw
    rw [List.count_eq_zero]
    intro hmem
    obtain ⟨out, hout, hname⟩ := List.mem_map.1 hmem
    obtain ⟨j, t1, h1, h2, rfl⟩ := (mem_getTargets _ _ _ _ _).1 hout
    have hj : j = i := targetNameAt_injective k8sLDP j i hname
    subst hj
    rw [ht] at h1
    cases h1
    omega
  · intro hw
    apply List.count_eq_one_of_mem (getTargets_names_nodup env c backendID k8sLDP)
    exact List.mem_map.2 ⟨_, (mem_getTargets _ _ _ _ _).2 ⟨i, t, ht, hw, rfl⟩, rfl⟩

theorem getTargets_single (env : Env) (c : appGwConfigBuilder)
    (backendID : backendIdentifier) (name : String) (t : Target) :
    getTargets env c backendID { Name := name, Spec := { Targets := [t] } } =
      if toInt32 t.Weight < 1 then []
      else [newTargetAt env backendID
        (lookupPortPair c.mem.serviceBackendPairsByBackend backendID)
        { Name := name, Spec := { Targets := [t] } } 0 t] := by
  unfold getTargets
  rw [getTargetsMap_eq]
  by_cases hw : toInt32 t.Weight < 1
  · simp [keptEntries, hw, GoMap.rangeValues, RangeOrder.shuffle_nil]
  · simp [keptEntries, hw, GoMap.rangeValues, RangeOrder.shuffle_singleton]

/-- C1: the weight filter of `getTargets` decides on the declared weight after the
conversion to `int32`, so it fails on the weight as declared: the declared weight
4294967296 (at least 1) converts to 0 and yields no target, and the declared weight
-4294967295 (at most 0) converts to 1 and yields the target `<policyName>-target-0`
with weight 1. -/
theorem getTargets_declared_weight_truncated (env : Env) (c : appGwConfigBuilder)
    (backendID : backendIdentifier) (name : String) (b : TargetBackend) :
    getTargets env c backendID
        { Name := name, Spec := { Targets := [{ Weight := 4294967296, Backend := b }] } } = [] ∧
    ∃ out, getTargets env c backendID
        { Name := name, Spec := { Targets := [{ Weight := -4294967295, Backend := b }] } } = [out] ∧
      out.Name = name ++ "-target-0" ∧ out.WeightPerServer = 1 := by
  have h0 : toInt32 4294967296 < 1 := by decide
  have h1 : ¬ toInt32 (-4294967295) < 1 := by decide
  have h2 : toInt32 (-4294967295) = 1 := by decide
  have h3 : "-target-" ++ formatInt 0 = "-target-0" := by decide
  refine ⟨?_, ?_⟩
  · rw [getTargets_single]
    exact if_pos h0
  · rw [getTargets_single]
    refine ⟨_, if_neg h1, ?_, h2⟩
    show name ++ "-target-" ++ formatInt 0 = name ++ "-target-0"
    rw [String.append_assoc, h3]

theorem getTargets_eq_nil_of_all_below (env : Env) (c : appGwConfigBuilder)
    (backendID : backendIdentifier) (k8sLDP : v1.LoadDistributionPolicy)
    (h : ∀ t ∈ k8sLDP.Spec.Targets, toInt32 t.Weight < 1) :
    getTargets env c backendID k8sLDP = [] := by
  apply List.eq_nil_iff_forall_not_mem.2
  intro out hout
  obtain ⟨i, t, h1, h2, _⟩ := (mem_getTargets _ _ _ _ _).1 hout
  have := h t (List.get?_mem h1)
  omega

/-- C2: every target that `getTargets` returns carries a weight of at least 1, and a
policy that declares no target, or only targets whose converted weight is below 1,
yields the empty sequence; but the test is made after the conversion to `int32`, so
a policy whose only declared weight is -8589934590, which is below 1, yields one
target, of weight 2. -/
theorem getTargets_weights_valid_after_truncation (env : Env) (c : appGwConfigBuilder)
    (backendID : backendIdentifier) :
    (∀ k8sLDP : v1.LoadDistributionPolicy,
      ∀ out ∈ getTargets env c backendID k8sLDP, 1 ≤ out.WeightPerServer) ∧
    (∀ name : String,
      getTargets env c backendID { Name := name, Spec := { Targets := [] } } = []) ∧
    (∀ k8sLDP : v1.LoadDistributionPolicy,
      (∀ t ∈ k8sLDP.Spec.Targets, toInt32 t.Weight < 1) →
        getTargets env c backendID k8sLDP = []) ∧
    (∀ (name : String) (b : TargetBackend), ∃ out,
      getTargets env c backendID
        { Name := name, Spec := { Targets := [{ Weight := -8589934590, Backend := b }] } }
        = [out] ∧ out.WeightPerServer = 2) := by
  refine ⟨?_, ?_, ?_, ?_⟩
  · intro k8sLDP out hout
    obtain ⟨i, t, _, h2, rfl⟩ := (mem_getTargets _ _ _ _ _).1 hout
    exact h2
  · intro name
    exact getTargets_eq_nil_of_all_below env c backendID _ (by simp)
  · intro k8sLDP h
    exact getTargets_eq_nil_of_all_below env c backendID k8sLDP h
  · intro name b
    have h1 : ¬ toInt32 (-8589934590) < 1 := by decide
    have h2 : toInt32 (-8589934590) = 2 := by decide
    rw [getTargets_single]
    exact ⟨_, if_neg h1, h2⟩

/-- C3: a declared target that `getTargets` keeps is named after its position in the
declared list: the target declared at index `i` with a converted weight of at least 1
appears in the result under the name `<policyName>-target-<i>` with its weight and
its pool reference, every returned target arises so, and for the declared weights
`[0, 3]` the single returned target is named `<policyName>-target-1`. -/
theorem getTargets_name_is_declaration_index (env : Env) (c : appGwConfigBuilder)
    (backendID : backendIdentifier) (k8sLDP : v1.LoadDistributionPolicy) :
    (∀ i t, k8sLDP.Spec.Targets.get? i = some t → 1 ≤ toInt32 t.Weight →
      ∃ out ∈ getTargets env c backendID k8sLDP,
        out.Name = k8sLDP.Name ++ "-target-" ++ formatInt i ∧
        out.WeightPerServer = toInt32 t.Weight ∧
        out.BackendAddressPool.ID = env.AddressPoolID
          (env.generateAddressPoolName
            (backendID.Namespace ++ "-" ++ t.Backend.Service.Name)
            (env.serviceBackendPortToStr t.Backend.Service.Port)
            (lookupPortPair c.mem.serviceBackendPairsByBackend backendID).BackendPort)) ∧
    (∀ out ∈ getTargets env c backendID k8sLDP,
      ∃ i t, k8sLDP.Spec.Targets.get? i = some t ∧ 1 ≤ toInt32 t.Weight ∧
        out.Name = k8sLDP.Name ++ "-target-" ++ formatInt i ∧
        out.WeightPerServer = toInt32 t.Weight ∧
        out.BackendAddressPool.ID = env.AddressPoolID
          (env.generateAddressPoolName
            (backendID.Namespace ++ "-" ++ t.Backend.Service.Name)
            (env.serviceBackendPortToStr t.Backend.Service.Port)
            (lookupPortPair c.mem.serviceBackendPairsByBackend backendID).BackendPort)) ∧
    (∀ b0 b1 : TargetBackend,
      (getTargets env c backendID
        { Name := k8sLDP.Name,
          Spec := { Targets := [{ Weight := 0, Backend := b0 }, { Weight := 3, Backend := b1 }] } }).map
        (fun out => out.Name) = [k8sLDP.Name ++ "-target-1"]) := by
  refine ⟨?_, ?_, ?_⟩
  · intro i t ht hw
    exact ⟨_, (mem_getTargets _ _ _ _ _).2 ⟨i, t, ht, hw, rfl⟩, rfl, rfl, rfl⟩
  · intro out hout
    obtain ⟨i, t, ht, hw, rfl⟩ := (mem_getTargets _ _ _ _ _).1 hout
    exact ⟨i, t, ht, hw, rfl, rfl, rfl⟩
  · intro b0 b1
    have h0 : toInt32 0 < 1 := by decide
    have h3 : ¬ toInt32 3 < 1 := by decide
    have hn : "-target-" ++ formatInt 1 = "-target-1" := by decide
    unfold getTargets
    rw [getTargetsMap_eq]
    simp only [keptEntries, h0, h3, if_true, if_false, GoMap.rangeValues,
      RangeOrder.shuffle_singleton, List.map_cons, List.map_nil, newTargetAt, targetNameAt]
    rw [String.append_assoc, hn]

/-! ## Lemmas on the loop over the backends -/

theorem step_not_ldp (env : Env) (c : appGwConfigBuilder) (st : LoopState)
    (b : backendIdentifier) (h : env.isLDPBackend b = false) :
    getLoadDistributionPoliciesStep env c st b = st := by
  simp [getLoadDistributionPoliciesStep, h]

theorem step_has (env : Env) (c : appGwConfigBuilder) (st : LoopState)
    (b : backendIdentifier)
    (h : GoMap.has st.policies b.Backend.Resource.Name = true) :
    getLoadDistributionPoliciesStep env c st b = st := by
  by_cases hl : env.isLDPBackend b = true
  · simp [getLoadDistributionPoliciesStep, hl, h]
  · simp [getLoadDistributionPoliciesStep, hl]

theorem step_error (env : Env) (c : appGwConfigBuilder) (st : LoopState)
    (b : backendIdentifier) (e : String) (hl : env.isLDPBackend b = true)
    (h : GoMap.has st.policies b.Backend.Resource.Name = false)
    (hf : env.GetLoadDistributionPolicy b.Namespace b.Backend.Resource.Name = Except.error e) :
    getLoadDistributionPoliciesStep env c st b =
      { policies := st.policies
        trace := st.trace ++
          [Event.fetch b.Namespace b.Backend.Resource.Name, Event.logError e] } := by
  simp [getLoadDistributionPoliciesStep, hl, h, hf]

theorem step_ok (env : Env) (c : appGwConfigBuilder) (st : LoopState)
    (b : backendIdentifier) (ldp : v1.LoadDistributionPolicy)
    (hl : env.isLDPBackend b = true)
    (h : GoMap.has st.policies b.Backend.Resource.Name = false)
    (hf : env.GetLoadDistributionPolicy b.Namespace b.Backend.Resource.Name = Except.ok ldp) :
    getLoadDistributionPoliciesStep env c st b =
      { policies := GoMap.store st.policies b.Backend.Resource.Name (buildPolicy env c b ldp)
        trace := st.trace ++ [Event.fetch b.Namespace b.Backend.Resource.Name] } := by
  simp [getLoadDistributionPoliciesStep, hl, h, hf, buildPolicy]

theorem loop_nil (env : Env) (c : appGwConfigBuilder) (st : LoopState) :
    getLoadDistributionPoliciesLoop env c [] st = st := rfl

theorem loop_cons (env : Env) (c : appGwConfigBuilder) (b : backendIdentifier)
    (bs : List backendIdentifier) (st : LoopState) :
    getLoadDistributionPoliciesLoop env c (b :: bs) st =
      getLoadDistributionPoliciesLoop env c bs (getLoadDistributionPoliciesStep env c st b) :=
  rfl

theorem loop_append (env : Env) (c : appGwConfigBuilder) (bs1 bs2 : List backendIdentifier)
    (st : LoopState) :
    getLoadDistributionPoliciesLoop env c (bs1 ++ bs2) st =
      getLoadDistributionPoliciesLoop env c bs2 (getLoadDistributionPoliciesLoop env c bs1 st) := by
  simp [getLoadDistributionPoliciesLoop, List.foldl_append]

/-- Case analysis of one step of the loop. -/
theorem step_cases (env : Env) (c : appGwConfigBuilder) (st : LoopState)
    (b : backendIdentifier) :
    (getLoadDistributionPoliciesStep env c st b = st ∧
      (env.isLDPBackend b = false ∨ GoMap.has st.policies b.Backend.Resource.Name = true)) ∨
    (∃ e, env.isLDPBackend b = true ∧ GoMap.has st.policies b.Backend.Resource.Name = false ∧
      env.GetLoadDistributionPolicy b.Namespace b.Backend.Resource.Name = Except.error e ∧
      getLoadDistributionPoliciesStep env c st b =
        { policies := st.policies
          trace := st.trace ++
            [Event.fetch b.Namespace b.Backend.Resource.Name, Event.logError e] }) ∨
    (∃ ldp, env.isLDPBackend b = true ∧ GoMap.has st.policies b.Backend.Resource.Name = false ∧
      env.GetLoadDistributionPolicy b.Namespace b.Backend.Resource.Name = Except.ok ldp ∧
      getLoadDistributionPoliciesStep env c st b =
        { policies := GoMap.store st.policies b.Backend.Resource.Name (buildPolicy env c b ldp)
          trace := st.trace ++ [Event.fetch b.Namespace b.Backend.Resource.Name] }) := by
  cases hl : env.isLDPBackend b with
  | false => exact Or.inl ⟨step_not_ldp env c st b hl, Or.inl rfl⟩
  | true =>
    cases hh : GoMap.has st.policies b.Backend.Resource.Name with
    | true => exact Or.inl ⟨step_has env c st b hh, Or.inr rfl⟩
    | false =>
      cases hf : env.GetLoadDistributionPolicy b.Namespace b.Backend.Resource.Name with
      | error e => exact Or.inr (Or.inl ⟨e, rfl, rfl, rfl, step_error env c st b e hl hh hf⟩)
      | ok ldp => exact Or.inr (Or.inr ⟨ldp, rfl, rfl, rfl, step_ok env c st b ldp hl hh hf⟩)

/-- Entry of a bare policy name after the loop: the entry it had before, or else the
policy built from the first winner among the backends processed. -/
theorem find_loop (env : Env) (c : appGwConfigBuilder) (bs : List backendIdentifier)
    (st : LoopState) (ldpName : String) :
    GoMap.find (getLoadDistributionPoliciesLoop env c bs st).policies ldpName =
      (GoMap.find st.policies ldpName).orElse
        (fun _ => (firstWinner env bs ldpName).map (fun w => buildPolicy env c w.1 w.2)) := by
  induction bs generalizing st with
  | nil => cases h : GoMap.find st.policies ldpName <;> simp [loop_nil, firstWinner, h]
  | cons b rest ih =>
    rw [loop_cons, ih]
    rcases step_cases env c st b with ⟨hs, hc⟩ | ⟨e, hl, hh, hf, hs⟩ | ⟨ldp, hl, hh, hf, hs⟩
    · rw [hs]
      cases hfind : GoMap.find st.policies ldpName with
      | some v => simp
      | none =>
        have hne : ¬ (env.isLDPBackend b = true ∧ b.Backend.Resource.Name = ldpName) := by
          rintro ⟨h1, h2⟩
          rcases hc with hc | hc
          · rw [h1] at hc; cases hc
          · rw [h2] at hc
            simp [GoMap.has, hfind] at hc
        simp [firstWinner, hne]
    · rw [hs]
      by_cases hn : b.Backend.Resource.Name = ldpName
      · rw [hn] at hf
        simp [firstWinner, hl, hn, hf]
      · simp [firstWinner, hn]
    · rw [hs]
      by_cases hn : b.Backend.Resource.Name = ldpName
      · have hnone : GoMap.find st.policies ldpName = none := by
          rw [hn] at hh
          cases hfind : GoMap.find st.policies ldpName with
          | none => rfl
          | some v => simp [GoMap.has, hfind] at hh
        rw [hn] at hf
        simp only [hn, GoMap.find_store_same, hnone]
        simp [firstWinner, hl, hn, hf]
      · simp only [GoMap.find_store_ne _ _ _ _ hn]
        simp [firstWinner, hn]

theorem firstWinner_spec (env : Env) (bs : List backendIdentifier) (ldpName : String)
    (b : backendIdentifier) (ldp : v1.LoadDistributionPolicy)
    (h : firstWinner env bs ldpName = some (b, ldp)) :
    b ∈ bs ∧ env.isLDPBackend b = true ∧ b.Backend.Resource.Name = ldpName ∧
      env.GetLoadDistributionPolicy b.Namespace b.Backend.Resource.Name = Except.ok ldp := by
  induction bs with
  | nil => simp [firstWinner] at h
  | cons b0 rest ih =>
    unfold firstWinner at h
    by_cases hc : env.isLDPBackend b0 = true ∧ b0.Backend.Resource.Name = ldpName
    · rw [if_pos hc] at h
      cases hf : env.GetLoadDistributionPolicy b0.Namespace ldpName with
      | ok l =>
        rw [hf] at h
        simp only [Option.some.injEq, Prod.mk.injEq] at h
        obtain ⟨rfl, rfl⟩ := h
        exact ⟨List.mem_cons_self _ _, hc.1, hc.2, by rw [hc.2]; exact hf⟩
      | error e =>
        rw [hf] at h
        obtain ⟨h1, h2⟩ := ih h
        exact ⟨List.mem_cons_of_mem _ h1, h2⟩
    · rw [if_neg hc] at h
      obtain ⟨h1, h2⟩ := ih h
      exact ⟨List.mem_cons_of_mem _ h1, h2⟩

theorem GoMap.nodup_keys_store {V : Type} (m : GoMap V) (k : String) (v : V)
    (h : (GoMap.keys m).Nodup) : (GoMap.keys (GoMap.store m k v)).Nodup := by
  by_cases hk : k ∈ GoMap.keys m
  · have hkeys : GoMap.keys (GoMap.store m k v) = GoMap.keys m := by
      clear h
      induction m with
      | nil => simp [GoMap.keys] at hk
      | cons e rest ih =>
        obtain ⟨k0, v0⟩ := e
        by_cases h0 : k0 = k
        · simp [GoMap.store, GoMap.keys, h0]
        · have : k ∈ GoMap.keys rest := by
            simp only [GoMap.keys, List.map_cons, List.mem_cons] at hk
            rcases hk with hk | hk
            · exact absurd hk.symm h0
            · exact hk
          have ih2 := ih this
          simp only [GoMap.keys] at ih2
          simp [GoMap.store, GoMap.keys, h0, ih2]
    rw [hkeys]; exact h
  · rw [GoMap.store_of_not_mem m k v hk]
    simp only [GoMap.keys, List.map_append, List.map_cons, List.map_nil]
    rw [List.nodup_append]
    refine ⟨h, by simp, ?_⟩
    intro a ha hb
    simp only [List.mem_singleton] at hb
    exact hk (hb ▸ ha)

theorem nodup_keys_loop (env : Env) (c : appGwConfigBuilder) (bs : List backendIdentifier)
    (st : LoopState) (h : (GoMap.keys st.policies).Nodup) :
    (GoMap.keys (getLoadDistributionPoliciesLoop env c bs st).policies).Nodup := by
  induction bs generalizing st with
  | nil => exact h
  | cons b rest ih =>
    rw [loop_cons]
    apply ih
    rcases step_cases env c st b with ⟨hs, _⟩ | ⟨e, _, _, _, hs⟩ | ⟨ldp, _, _, _, hs⟩
    · rw [hs]; exact h
    · rw [hs]; exact h
    · rw [hs]; exact GoMap.nodup_keys_store _ _ _ h

/-! ## Claims on `LoadDistributionPolicy` and the cache -/

theorem sortByLoadDistributionPolicyName_sorted
    (ldps : List ApplicationGatewayLoadDistributionPolicy) :
    List.Sorted (fun a b => a.Name ≤ b.Name) (sortByLoadDistributionPolicyName ldps) := by
  haveI : IsTotal ApplicationGatewayLoadDistributionPolicy (fun a b => a.Name ≤ b.Name) :=
    ⟨fun a b => le_total a.Name b.Name⟩
  haveI : IsTrans ApplicationGatewayLoadDistributionPolicy (fun a b => a.Name ≤ b.Name) :=
    ⟨fun _ _ _ h1 h2 => le_trans h1 h2⟩
  exact List.sorted_insertionSort _ ldps

theorem sortByLoadDistributionPolicyName_perm
    (ldps : List ApplicationGatewayLoadDistributionPolicy) :
    (sortByLoadDistributionPolicyName ldps).Perm ldps :=
  List.perm_insertionSort _ ldps

/-- The sequence written by `LoadDistributionPolicy`: sorted, and a rearrangement of
the sequence that the aggregator returns. -/
theorem written_sorted_perm (env : Env) (c : appGwConfigBuilder)
    (cbCtx : ConfigBuilderContext) :
    ∃ written, (LoadDistributionPolicy env c cbCtx).c.appGw.LoadDistributionPolicies
        = some written ∧
      List.Sorted (fun a b => a.Name ≤ b.Name) written ∧
      written.Perm (getLoadDistributionPolicies env c cbCtx).ldps := by
  unfold LoadDistributionPolicy
  cases h : (getLoadDistributionPolicies env c cbCtx).ldps with
  | nil => exact ⟨[], by simp [h], List.sorted_nil, List.Perm.refl _⟩
  | cons p rest =>
    exact ⟨sortByLoadDistributionPolicyName (p :: rest), by simp [h],
      sortByLoadDistributionPolicyName_sorted _, sortByLoadDistributionPolicyName_perm _⟩

/-- C4: the sequence that `LoadDistributionPolicy` writes into the gateway document is
sorted by policy name, ascending, and is a permutation of the sequence that
`getLoadDistributionPolicies` returns. -/
theorem LoadDistributionPolicy_sorted_perm (env : Env) (c : appGwConfigBuilder)
    (cbCtx : ConfigBuilderContext) :
    ∃ written, (LoadDistributionPolicy env c cbCtx).c.appGw.LoadDistributionPolicies
        = some written ∧
      List.Sorted (fun a b => a.Name ≤ b.Name) written ∧
      written.Perm (getLoadDistributionPolicies env c cbCtx).ldps := by
  unfold LoadDistributionPolicy
  cases h : (getLoadDistributionPolicies env c cbCtx).ldps with
  | nil => exact ⟨[], by simp [h], List.sorted_nil, List.Perm.refl _⟩
  | cons p rest =>
    exact ⟨sortByLoadDistributionPolicyName (p :: rest), by simp [h],
      sortByLoadDistributionPolicyName_sorted _, sortByLoadDistributionPolicyName_perm _⟩

theorem getLoadDistributionPolicies_miss (env : Env) (c : appGwConfigBuilder)
    (cbCtx : ConfigBuilderContext) (h : c.mem.loadDistributionPolicies = none) :
    getLoadDistributionPolicies env c cbCtx =
      { ldps := GoMap.rangeValues env.rangeOrder
          (getLoadDistributionPoliciesLoop env c (newBackendIdsFiltered cbCtx)
            LoopState.initial).policies
        receiver := { c with mem := { c.mem with
                 loadDistributionPolicies := some (GoMap.rangeValues env.rangeOrder
                   (getLoadDistributionPoliciesLoop env c (newBackendIdsFiltered cbCtx)
                     LoopState.initial).policies) } }
        c := if c.memByPointer then
            { c with mem := { c.mem with
                 loadDistributionPolicies := some (GoMap.rangeValues env.rangeOrder
                   (getLoadDistributionPoliciesLoop env c (newBackendIdsFiltered cbCtx)
                     LoopState.initial).policies) } }
          else c
        trace := (getLoadDistributionPoliciesLoop env c (newBackendIdsFiltered cbCtx)
          LoopState.initial).trace } := by
  unfold getLoadDistributionPolicies
  rw [h]
  rfl

theorem getLoadDistributionPolicies_hit (env : Env) (c : appGwConfigBuilder)
    (cbCtx : ConfigBuilderContext) (cached : List ApplicationGatewayLoadDistributionPolicy)
    (h : c.mem.loadDistributionPolicies = some cached) :
    getLoadDistributionPolicies env c cbCtx =
      { ldps := cached, receiver := c, c := c, trace := [] } := by
  unfold getLoadDistributionPolicies
  rw [h]

theorem loop_policies_of_all_fail (env : Env) (c : appGwConfigBuilder)
    (hfail : ∀ ns name, ∃ e, env.GetLoadDistributionPolicy ns name = Except.error e)
    (bs : List backendIdentifier) (st : LoopState) :
    (getLoadDistributionPoliciesLoop env c bs st).policies = st.policies := by
  induction bs generalizing st with
  | nil => rfl
  | cons b rest ih =>
    rw [loop_cons, ih]
    rcases step_cases env c st b with ⟨hs, _⟩ | ⟨e, _, _, _, hs⟩ | ⟨ldp, _, _, hf, _⟩
    · rw [hs]
    · rw [hs]
    · obtain ⟨e, he⟩ := hfail b.Namespace b.Backend.Resource.Name
      rw [he] at hf
      cases hf

theorem ldps_nil_of_all_fail (env : Env) (c : appGwConfigBuilder)
    (cbCtx : ConfigBuilderContext)
    (hfail : ∀ ns name, ∃ e, env.GetLoadDistributionPolicy ns name = Except.error e)
    (hmiss : c.mem.loadDistributionPolicies = none) :
    (getLoadDistributionPolicies env c cbCtx).ldps = [] := by
  rw [getLoadDistributionPolicies_miss env c cbCtx hmiss]
  simp only []
  rw [loop_policies_of_all_fail env c hfail]
  simp [LoopState.initial, GoMap.rangeValues, RangeOrder.shuffle_nil]

/-- C9: memoization.  Starting from an empty cache, `getLoadDistributionPolicies`
assigns the sequence it returns to the cache of its receiver; the method has a value
receiver (line 29), so the builder of the caller holds that sequence, and a second
call returns it without any fetch whatever its backend set and policy store are, when
`mem` is held by pointer.  On the sample builder, which holds `mem` by value, the
builder of the caller is unchanged by the first call: a second call fetches `ns1/ldp1`
again, and on a store that fails it returns the empty sequence where the first call
returned one policy. -/
theorem getLoadDistributionPolicies_memoized_by_pointer_only :
    (∀ (env env2 : Env) (c : appGwConfigBuilder) (cbCtx cbCtx2 : ConfigBuilderContext),
      c.mem.loadDistributionPolicies = none →
      (getLoadDistributionPolicies env c cbCtx).receiver.mem.loadDistributionPolicies =
        some (getLoadDistributionPolicies env c cbCtx).ldps ∧
      (c.memByPointer = true →
        (getLoadDistributionPolicies env c cbCtx).c.mem.loadDistributionPolicies =
          some (getLoadDistributionPolicies env c cbCtx).ldps ∧
        (getLoadDistributionPolicies env2
          (getLoadDistributionPolicies env c cbCtx).c cbCtx2).ldps =
          (getLoadDistributionPolicies env c cbCtx).ldps ∧
        (getLoadDistributionPolicies env2
          (getLoadDistributionPolicies env c cbCtx).c cbCtx2).trace = [])) ∧
    ((getLoadDistributionPolicies (sampleEnv RangeOrder.insertion) sampleBuilder
        { backendIds := [sampleBackend "ns1" "ldp1"] }).c = sampleBuilder ∧
     (getLoadDistributionPolicies (sampleEnv RangeOrder.insertion) sampleBuilder
        { backendIds := [sampleBackend "ns1" "ldp1"] }).trace = [Event.fetch "ns1" "ldp1"] ∧
     (getLoadDistributionPolicies (sampleEnv RangeOrder.insertion) sampleBuilder
        { backendIds := [sampleBackend "ns1" "ldp1"] }).ldps.length = 1 ∧
     (getLoadDistributionPolicies (sampleEnv RangeOrder.insertion)
        (getLoadDistributionPolicies (sampleEnv RangeOrder.insertion) sampleBuilder
          { backendIds := [sampleBackend "ns1" "ldp1"] }).c
        { backendIds := [sampleBackend "ns1" "ldp1"] }).trace = [Event.fetch "ns1" "ldp1"] ∧
     (getLoadDistributionPolicies (failingEnv RangeOrder.insertion)
        (getLoadDistributionPolicies (sampleEnv RangeOrder.insertion) sampleBuilder
          { backendIds := [sampleBackend "ns1" "ldp1"] }).c
        { backendIds := [sampleBackend "ns1" "ldp1"] }).ldps = []) := by
  refine ⟨?_, by decide⟩
  intro env env2 c cbCtx cbCtx2 h
  have hmiss := getLoadDistributionPolicies_miss env c cbCtx h
  refine ⟨by rw [hmiss], fun hp => ?_⟩
  have hc : (getLoadDistributionPolicies env c cbCtx).c.mem.loadDistributionPolicies =
      some (getLoadDistributionPolicies env c cbCtx).ldps := by
    rw [hmiss]
    simp [hp]
  have h2 := getLoadDistributionPolicies_hit env2 _ cbCtx2 _ hc
  exact ⟨hc, by rw [h2], by rw [h2]⟩

/-- C10: cache hit.  When the cache of the builder holds a sequence, the empty one
included, `getLoadDistributionPolicies` returns that sequence for every backend set
and policy store, without any fetch or diagnostic and without changing the builder. -/
theorem getLoadDistributionPolicies_cache_hit (env : Env) (c : appGwConfigBuilder)
    (cbCtx : ConfigBuilderContext) (cached : List ApplicationGatewayLoadDistributionPolicy)
    (h : c.mem.loadDistributionPolicies = some cached) :
    (getLoadDistributionPolicies env c cbCtx).ldps = cached ∧
    (getLoadDistributionPolicies env c cbCtx).trace = [] ∧
    (getLoadDistributionPolicies env c cbCtx).c = c := by
  rw [getLoadDistributionPolicies_hit env c cbCtx cached h]
  exact ⟨rfl, rfl, rfl⟩

/-- A builder whose cache holds the empty sequence returns it although a backend of
the set is bound to a policy that the store has. -/
theorem getLoadDistributionPolicies_cache_hit_witness :
    ({ sampleBuilder with mem := { sampleBuilder.mem with
        loadDistributionPolicies := some [] } } : appGwConfigBuilder).mem.loadDistributionPolicies
      = some [] ∧
    (getLoadDistributionPolicies (sampleEnv RangeOrder.insertion)
      { sampleBuilder with mem := { sampleBuilder.mem with
          loadDistributionPolicies := some [] } }
      { backendIds := [sampleBackend "ns1" "ldp1"] }).ldps = [] ∧
    (getLoadDistributionPolicies (sampleEnv RangeOrder.insertion)
      { sampleBuilder with mem := { sampleBuilder.mem with
          loadDistributionPolicies := some [] } }
      { backendIds := [sampleBackend "ns1" "ldp1"] }).trace = [] :=
  ⟨rfl,
    (getLoadDistributionPolicies_cache_hit (sampleEnv RangeOrder.insertion)
      { sampleBuilder with mem := { sampleBuilder.mem with
          loadDistributionPolicies := some [] } }
      { backendIds := [sampleBackend "ns1" "ldp1"] } [] rfl).1,
    (getLoadDistributionPolicies_cache_hit (sampleEnv RangeOrder.insertion)
      { sampleBuilder with mem := { sampleBuilder.mem with
          loadDistributionPolicies := some [] } }
      { backendIds := [sampleBackend "ns1" "ldp1"] } [] rfl).2.1⟩

/-! ## Claims on the dedup across backends -/

theorem find_loop_initial (env : Env) (c : appGwConfigBuilder) (bs : List backendIdentifier)
    (ldpName : String) :
    GoMap.find (getLoadDistributionPoliciesLoop env c bs LoopState.initial).policies ldpName =
      (firstWinner env bs ldpName).map (fun w => buildPolicy env c w.1 w.2) := by
  rw [find_loop]
  simp [LoopState.initial, GoMap.find]

theorem nodup_keys_loop_initial (env : Env) (c : appGwConfigBuilder)
    (bs : List backendIdentifier) :
    (GoMap.keys (getLoadDistributionPoliciesLoop env c bs LoopState.initial).policies).Nodup :=
  nodup_keys_loop env c bs LoopState.initial (by simp [LoopState.initial, GoMap.keys])

/-- Every entry of the map after the loop is the policy of the first winner of its key. -/
theorem entry_of_loop (env : Env) (c : appGwConfigBuilder) (bs : List backendIdentifier)
    (e : String × ApplicationGatewayLoadDistributionPolicy)
    (he : e ∈ (getLoadDistributionPoliciesLoop env c bs LoopState.initial).policies) :
    ∃ w, firstWinner env bs e.1 = some w ∧ w.1.Backend.Resource.Name = e.1 ∧
      e.2 = buildPolicy env c w.1 w.2 := by
  obtain ⟨k, v⟩ := e
  have hf := GoMap.find_of_mem _ k v (nodup_keys_loop_initial env c bs) he
  rw [find_loop_initial] at hf
  cases hw : firstWinner env bs k with
  | none => rw [hw] at hf; cases hf
  | some w =>
    rw [hw] at hf
    simp only [Option.map_some', Option.some.injEq] at hf
    obtain ⟨b, ldp⟩ := w
    exact ⟨(b, ldp), rfl, (firstWinner_spec env bs k b ldp hw).2.2.1, hf.symm⟩

theorem firstWinner_isSome (env : Env) (bs : List backendIdentifier) (b : backendIdentifier)
    (ldp : v1.LoadDistributionPolicy) (hb : b ∈ bs) (hl : env.isLDPBackend b = true)
    (hf : env.GetLoadDistributionPolicy b.Namespace b.Backend.Resource.Name = Except.ok ldp) :
    ∃ w, firstWinner env bs b.Backend.Resource.Name = some w := by
  induction bs with
  | nil => cases hb
  | cons b0 rest ih =>
    unfold firstWinner
    by_cases hc : env.isLDPBackend b0 = true ∧
        b0.Backend.Resource.Name = b.Backend.Resource.Name
    · rw [if_pos hc]
      cases hf0 : env.GetLoadDistributionPolicy b0.Namespace b.Backend.Resource.Name with
      | ok l => exact ⟨_, rfl⟩
      | error e =>
        rcases List.mem_cons.1 hb with h | h
        · subst h
          rw [hf] at hf0
          cases hf0
        · exact ih h
    · rw [if_neg hc]
      rcases List.mem_cons.1 hb with h | h
      · subst h
        exact absurd ⟨hl, rfl⟩ hc
      · exact ih h

theorem winners_of_entries {W : Type}
    (L : List (String × ApplicationGatewayLoadDistributionPolicy))
    (f : String → Option W) (g : W → String)
    (build : W → ApplicationGatewayLoadDistributionPolicy)
    (h : ∀ e ∈ L, ∃ w, f e.1 = some w ∧ g w = e.1 ∧ e.2 = build w) :
    (L.filterMap (fun e => f e.1)).map g = L.map Prod.fst ∧
    L.map Prod.snd = (L.filterMap (fun e => f e.1)).map build ∧
    ∀ w ∈ L.filterMap (fun e => f e.1), f (g w) = some w := by
  induction L with
  | nil => simp
  | cons e rest ih =>
    obtain ⟨w, h1, h2, h3⟩ := h e (List.mem_cons_self _ _)
    obtain ⟨i1, i2, i3⟩ := ih (fun e1 he1 => h e1 (List.mem_cons_of_mem _ he1))
    refine ⟨?_, ?_, ?_⟩
    · simp [List.filterMap_cons, h1, h2, i1]
    · simp only [List.filterMap_cons, h1, List.map_cons, h3]
      rw [i2]
    · intro w1 hw1
      simp only [List.filterMap_cons, h1, List.mem_cons] at hw1
      rcases hw1 with rfl | hw1
      · rw [h2]; exact h1
      · exact i3 w1 hw1

theorem nodup_map_of_nodup_map {α β γ : Type} (l : List α) (f : α → β) (g : α → γ)
    (hfg : ∀ a b, g a = g b → f a = f b) (h : (l.map f).Nodup) : (l.map g).Nodup := by
  apply List.Nodup.map_on _ (List.Nodup.of_map f h)
  intro x hx y hy hxy
  exact List.inj_on_of_nodup_map h hx hy (hfg x y hxy)

/-- On an empty cache the policies that `getLoadDistributionPolicies` returns are those
built from a list of winners (a policy-bound backend of the set with its successfully
fetched policy) whose bare policy names are pairwise distinct, and every policy-bound
backend whose fetch succeeds has its bare name among them. -/
theorem output_winners (env : Env) (c : appGwConfigBuilder)
    (cbCtx : ConfigBuilderContext) (h : c.mem.loadDistributionPolicies = none) :
    (∃ winners : List (backendIdentifier × v1.LoadDistributionPolicy),
      (winners.map (fun w => w.1.Backend.Resource.Name)).Nodup ∧
      (∀ w ∈ winners, w.1 ∈ newBackendIdsFiltered cbCtx ∧ env.isLDPBackend w.1 = true ∧
        env.GetLoadDistributionPolicy w.1.Namespace w.1.Backend.Resource.Name
          = Except.ok w.2) ∧
      (∀ b ldp, b ∈ newBackendIdsFiltered cbCtx → env.isLDPBackend b = true →
        env.GetLoadDistributionPolicy b.Namespace b.Backend.Resource.Name = Except.ok ldp →
        b.Backend.Resource.Name ∈ winners.map (fun w => w.1.Backend.Resource.Name)) ∧
      (getLoadDistributionPolicies env c cbCtx).ldps =
        winners.map (fun w =>
          ({ Name := env.generateLoadDistributionName w.1.Namespace w.1.Backend.Resource.Name
             ID := env.loadDistributionPolicyID
               (env.generateLoadDistributionName w.1.Namespace w.1.Backend.Resource.Name)
             LoadDistributionAlgorithm := ApplicationGatewayLoadDistributionAlgorithm.RoundRobin
             LoadDistributionTargets := getTargets env c w.1 w.2 } :
            ApplicationGatewayLoadDistributionPolicy))) ∧
    ((∀ ns1 n1 ns2 n2, env.generateLoadDistributionName ns1 n1 =
        env.generateLoadDistributionName ns2 n2 → n1 = n2) →
      ((getLoadDistributionPolicies env c cbCtx).ldps.map (fun p => p.Name)).Nodup) := by
  have hmiss := getLoadDistributionPolicies_miss env c cbCtx h
  have hkeys := nodup_keys_loop_initial env c (newBackendIdsFiltered cbCtx)
  have hperm := env.rangeOrder.shuffle_perm
    (getLoadDistributionPoliciesLoop env c (newBackendIdsFiltered cbCtx)
      LoopState.initial).policies
  obtain ⟨w1, w2, w3⟩ := winners_of_entries
    (env.rangeOrder.shuffle (getLoadDistributionPoliciesLoop env c
      (newBackendIdsFiltered cbCtx) LoopState.initial).policies)
    (firstWinner env (newBackendIdsFiltered cbCtx))
    (fun w => w.1.Backend.Resource.Name) (fun w => buildPolicy env c w.1 w.2)
    (fun e he => entry_of_loop env c _ e (hperm.mem_iff.1 he))
  have hnd : ((List.filterMap (fun e => firstWinner env (newBackendIdsFiltered cbCtx) e.1)
      (env.rangeOrder.shuffle (getLoadDistributionPoliciesLoop env c
        (newBackendIdsFiltered cbCtx) LoopState.initial).policies)).map
      (fun w => w.1.Backend.Resource.Name)).Nodup := by
    rw [w1]
    exact ((hperm.map Prod.fst).nodup_iff).2 hkeys
  have hl : (getLoadDistributionPolicies env c cbCtx).ldps =
      (List.filterMap (fun e => firstWinner env (newBackendIdsFiltered cbCtx) e.1)
        (env.rangeOrder.shuffle (getLoadDistributionPoliciesLoop env c
          (newBackendIdsFiltered cbCtx) LoopState.initial).policies)).map
        (fun w => buildPolicy env c w.1 w.2) := by
    rw [hmiss]
    exact w2
  refine ⟨⟨_, hnd, ?_, ?_, hl⟩, ?_⟩
  · intro w hw
    obtain ⟨b, ldp⟩ := w
    have := firstWinner_spec env _ _ b ldp (w3 (b, ldp) hw)
    exact ⟨this.1, this.2.1, this.2.2.2⟩
  · intro b ldp hb hlb hf
    rw [w1]
    apply (hperm.map Prod.fst).mem_iff.2
    obtain ⟨w, hw⟩ := firstWinner_isSome env _ b ldp hb hlb hf
    have hfind := find_loop_initial env c (newBackendIdsFiltered cbCtx) b.Backend.Resource.Name
    rw [hw] at hfind
    exact List.mem_map.2 ⟨_, GoMap.mem_of_find _ _ _ hfind, rfl⟩
  · intro hinj
    rw [hl, List.map_map]
    exact nodup_map_of_nodup_map _
      (fun w : backendIdentifier × v1.LoadDistributionPolicy => w.1.Backend.Resource.Name)
      (fun w : backendIdentifier × v1.LoadDistributionPolicy =>
        env.generateLoadDistributionName w.1.Namespace w.1.Backend.Resource.Name)
      (fun a b hab => hinj _ _ _ _ hab) hnd

theorem has_loop_of_winner (env : Env) (c : appGwConfigBuilder) (bs : List backendIdentifier)
    (ldpName : String) (hw : ∃ w, firstWinner env bs ldpName = some w) :
    GoMap.has (getLoadDistributionPoliciesLoop env c bs LoopState.initial).policies ldpName
      = true := by
  obtain ⟨w, hw⟩ := hw
  simp [GoMap.has, find_loop_initial, hw]

theorem mem_getLoadDistributionPolicies (env : Env) (c : appGwConfigBuilder)
    (cbCtx : ConfigBuilderContext) (h : c.mem.loadDistributionPolicies = none)
    (p : ApplicationGatewayLoadDistributionPolicy) :
    p ∈ (getLoadDistributionPolicies env c cbCtx).ldps ↔
      ∃ w ldpName, firstWinner env (newBackendIdsFiltered cbCtx) ldpName = some w ∧
        p = buildPolicy env c w.1 w.2 := by
  rw [getLoadDistributionPolicies_miss env c cbCtx h]
  simp only []
  rw [GoMap.mem_rangeValues]
  constructor
  · rintro ⟨k, hk⟩
    obtain ⟨w, h1, _, h3⟩ := entry_of_loop env c _ (k, p) hk
    exact ⟨w, k, h1, h3⟩
  · rintro ⟨w, k, h1, rfl⟩
    refine ⟨k, GoMap.mem_of_find _ _ _ ?_⟩
    rw [find_loop_initial, h1]
    rfl

/-- C6: first write wins.  For every bare policy name the entry of the policy map after
the loop is the policy built from the first backend, in processing order, that is
policy-bound, references that name and whose fetch succeeds; the returned sequence
holds exactly these policies; and a backend that references a name for which an
earlier backend has won is skipped: the step leaves the map and the trace as they
are, so nothing is fetched for it, whatever its namespace. -/
theorem getLoadDistributionPolicies_first_write_wins (env : Env) (c : appGwConfigBuilder)
    (cbCtx : ConfigBuilderContext) (h : c.mem.loadDistributionPolicies = none) :
    (∀ ldpName,
      GoMap.find (getLoadDistributionPoliciesLoop env c (newBackendIdsFiltered cbCtx)
        LoopState.initial).policies ldpName =
      (firstWinner env (newBackendIdsFiltered cbCtx) ldpName).map
        (fun w => buildPolicy env c w.1 w.2)) ∧
    (∀ p, p ∈ (getLoadDistributionPolicies env c cbCtx).ldps ↔
      ∃ w ldpName, firstWinner env (newBackendIdsFiltered cbCtx) ldpName = some w ∧
        p = buildPolicy env c w.1 w.2) ∧
    ((getLoadDistributionPolicies env c cbCtx).ldps.Perm
      ((getLoadDistributionPoliciesLoop env c (newBackendIdsFiltered cbCtx)
        LoopState.initial).policies.map Prod.snd) ∧
     (getLoadDistributionPolicies env c cbCtx).trace =
      (getLoadDistributionPoliciesLoop env c (newBackendIdsFiltered cbCtx)
        LoopState.initial).trace) ∧
    (∀ pre b post, newBackendIdsFiltered cbCtx = pre ++ b :: post →
      (∃ w, firstWinner env pre b.Backend.Resource.Name = some w) →
      getLoadDistributionPoliciesStep env c
        (getLoadDistributionPoliciesLoop env c pre LoopState.initial) b =
      getLoadDistributionPoliciesLoop env c pre LoopState.initial) := by
  refine ⟨fun ldpName => find_loop_initial env c _ ldpName,
    fun p => mem_getLoadDistributionPolicies env c cbCtx h p, ⟨?_, ?_⟩, ?_⟩
  · rw [getLoadDistributionPolicies_miss env c cbCtx h]
    exact GoMap.rangeValues_perm _ _
  · rw [getLoadDistributionPolicies_miss env c cbCtx h]
  · intro pre b post _ hw
    exact step_has env c _ b (has_loop_of_winner env c pre _ hw)

/-- On the sample build the backend of `ns2` comes after the backend of `ns1` that
references the same bare name: the policy of `ns1` is returned and `ns2` is never
fetched. -/
theorem getLoadDistributionPolicies_first_write_wins_witness :
    sampleBuilder.mem.loadDistributionPolicies = none ∧
    (getLoadDistributionPoliciesStep (sampleEnv RangeOrder.insertion) sampleBuilder
        (getLoadDistributionPoliciesLoop (sampleEnv RangeOrder.insertion) sampleBuilder
          [sampleBackend "ns1" "ldp1"] LoopState.initial) (sampleBackend "ns2" "ldp1") =
      getLoadDistributionPoliciesLoop (sampleEnv RangeOrder.insertion) sampleBuilder
          [sampleBackend "ns1" "ldp1"] LoopState.initial) ∧
    (getLoadDistributionPolicies (sampleEnv RangeOrder.insertion) sampleBuilder
      { backendIds := [sampleBackend "ns1" "ldp1", sampleBackend "ns2" "ldp1"] }).trace =
      [Event.fetch "ns1" "ldp1"] ∧
    (getLoadDistributionPolicies (sampleEnv RangeOrder.insertion) sampleBuilder
      { backendIds := [sampleBackend "ns1" "ldp1", sampleBackend "ns2" "ldp1"] }).ldps.map
        (fun p => p.Name) = ["ldp-ns1-ldp1"] :=
  ⟨rfl,
    (getLoadDistributionPolicies_first_write_wins (sampleEnv RangeOrder.insertion)
      sampleBuilder
      { backendIds := [sampleBackend "ns1" "ldp1", sampleBackend "ns2" "ldp1"] } rfl).2.2.2
      [sampleBackend "ns1" "ldp1"] (sampleBackend "ns2" "ldp1") [] rfl ⟨_, rfl⟩,
    by decide, by decide⟩

/-! ## Claims on fetch failures -/

theorem step_policies_congr (env : Env) (c : appGwConfigBuilder) (st1 st2 : LoopState)
    (b : backendIdentifier) (h : st1.policies = st2.policies) :
    (getLoadDistributionPoliciesStep env c st1 b).policies =
      (getLoadDistributionPoliciesStep env c st2 b).policies := by
  rcases step_cases env c st1 b with ⟨hs, hc⟩ | ⟨e, hl, hh, hf, hs⟩ | ⟨ldp, hl, hh, hf, hs⟩
  · rw [hs]
    rcases hc with hc | hc
    · rw [step_not_ldp env c st2 b hc, h]
    · rw [step_has env c st2 b (h ▸ hc), h]
  · rw [hs, step_error env c st2 b e hl (h ▸ hh) hf]
    exact h
  · rw [hs, step_ok env c st2 b ldp hl (h ▸ hh) hf]
    simp only [h]

theorem loop_policies_congr (env : Env) (c : appGwConfigBuilder) (bs : List backendIdentifier)
    (st1 st2 : LoopState) (h : st1.policies = st2.policies) :
    (getLoadDistributionPoliciesLoop env c bs st1).policies =
      (getLoadDistributionPoliciesLoop env c bs st2).policies := by
  induction bs generalizing st1 st2 with
  | nil => exact h
  | cons b rest ih =>
    rw [loop_cons, loop_cons]
    exact ih _ _ (step_policies_congr env c st1 st2 b h)

theorem step_policies_of_error (env : Env) (c : appGwConfigBuilder) (st : LoopState)
    (b : backendIdentifier) (e : String)
    (hf : env.GetLoadDistributionPolicy b.Namespace b.Backend.Resource.Name = Except.error e) :
    (getLoadDistributionPoliciesStep env c st b).policies = st.policies := by
  rcases step_cases env c st b with ⟨hs, _⟩ | ⟨e1, _, _, _, hs⟩ | ⟨ldp, _, _, hf1, _⟩
  · rw [hs]
  · rw [hs]
  · rw [hf] at hf1
    cases hf1

theorem loop_policies_remove_failed (env : Env) (c : appGwConfigBuilder)
    (pre post : List backendIdentifier) (b : backendIdentifier) (e : String)
    (hf : env.GetLoadDistributionPolicy b.Namespace b.Backend.Resource.Name = Except.error e) :
    (getLoadDistributionPoliciesLoop env c (pre ++ b :: post) LoopState.initial).policies =
      (getLoadDistributionPoliciesLoop env c (pre ++ post) LoopState.initial).policies := by
  rw [loop_append, loop_append, loop_cons]
  exact loop_policies_congr env c post _ _ (step_policies_of_error env c _ b e hf)

theorem getLoadDistributionPolicies_congr (env : Env) (c : appGwConfigBuilder)
    (bs1 bs2 : List backendIdentifier)
    (h : (getLoadDistributionPoliciesLoop env c bs1 LoopState.initial).policies =
      (getLoadDistributionPoliciesLoop env c bs2 LoopState.initial).policies) :
    (getLoadDistributionPolicies env c { backendIds := bs1 }).ldps =
      (getLoadDistributionPolicies env c { backendIds := bs2 }).ldps ∧
    (getLoadDistributionPolicies env c { backendIds := bs1 }).c =
      (getLoadDistributionPolicies env c { backendIds := bs2 }).c := by
  cases hc : c.mem.loadDistributionPolicies with
  | some cached =>
    rw [getLoadDistributionPolicies_hit env c _ cached hc,
      getLoadDistributionPolicies_hit env c _ cached hc]
    exact ⟨rfl, rfl⟩
  | none =>
    rw [getLoadDistributionPolicies_miss env c _ hc, getLoadDistributionPolicies_miss env c _ hc]
    simp only [newBackendIdsFiltered, h, and_self]

/-- With the backends `ns1/ldp1`, `ns2/ldp1` and the failing `ns1/missing`, the backend of
`ns2` is policy-bound and its fetch succeeds, yet the policy built for it is not in the
output: the backend of `ns1` that references the same bare name came first. -/
theorem getLoadDistributionPolicies_other_backend_not_built :
    sampleStore "ns1" "missing" = Except.error "not found" ∧
    ¬ (∀ b ∈ [sampleBackend "ns1" "ldp1", sampleBackend "ns2" "ldp1"],
        (sampleEnv RangeOrder.insertion).isLDPBackend b = true →
        ∀ ldp, (sampleEnv RangeOrder.insertion).GetLoadDistributionPolicy b.Namespace
            b.Backend.Resource.Name = Except.ok ldp →
          buildPolicy (sampleEnv RangeOrder.insertion) sampleBuilder b ldp ∈
            (getLoadDistributionPolicies (sampleEnv RangeOrder.insertion) sampleBuilder
              { backendIds := [sampleBackend "ns1" "ldp1", sampleBackend "ns2" "ldp1",
                  sampleBackend "ns1" "missing"] }).ldps) := by
  refine ⟨rfl, fun hall => ?_⟩
  have hmem := hall (sampleBackend "ns2" "ldp1") (by decide) (by decide) samplePolicyNs2 rfl
  revert hmem
  decide

/-- C7 (amended): a backend whose fetch returns an error contributes nothing: the
sequence returned by `getLoadDistributionPolicies`, and the builder after the call,
are those of the backend set without that backend; and on an empty cache the output
contains the policy built for every other backend that is the first, in processing
order, of the policy-bound backends referencing its bare name whose fetch succeeds. -/
theorem getLoadDistributionPolicies_fetch_failure_skipped (env : Env)
    (c : appGwConfigBuilder) (pre post : List backendIdentifier) (b : backendIdentifier)
    (e : String)
    (hf : env.GetLoadDistributionPolicy b.Namespace b.Backend.Resource.Name = Except.error e) :
    (getLoadDistributionPolicies env c { backendIds := pre ++ b :: post }).ldps =
      (getLoadDistributionPolicies env c { backendIds := pre ++ post }).ldps ∧
    (getLoadDistributionPolicies env c { backendIds := pre ++ b :: post }).c =
      (getLoadDistributionPolicies env c { backendIds := pre ++ post }).c ∧
    (c.mem.loadDistributionPolicies = none →
      ∀ w ldpName, firstWinner env (pre ++ post) ldpName = some w →
        w.1 ∈ pre ++ post ∧ env.isLDPBackend w.1 = true ∧
        w.1.Backend.Resource.Name = ldpName ∧
        env.GetLoadDistributionPolicy w.1.Namespace w.1.Backend.Resource.Name = Except.ok w.2 ∧
        buildPolicy env c w.1 w.2 ∈
          (getLoadDistributionPolicies env c { backendIds := pre ++ b :: post }).ldps) := by
  have hcongr := getLoadDistributionPolicies_congr env c _ _
    (loop_policies_remove_failed env c pre post b e hf)
  refine ⟨hcongr.1, hcongr.2, ?_⟩
  intro hmiss w ldpName hw
  obtain ⟨wb, wl⟩ := w
  obtain ⟨h1, h2, h3, h4⟩ := firstWinner_spec env _ _ wb wl hw
  refine ⟨h1, h2, h3, h4, ?_⟩
  rw [hcongr.1]
  exact (mem_getLoadDistributionPolicies env c { backendIds := pre ++ post } hmiss _).2
    ⟨(wb, wl), ldpName, hw, rfl⟩

/-- On the sample build the failing backend `ns1/missing` changes nothing: the output is
the one of the two other backends. -/
theorem getLoadDistributionPolicies_fetch_failure_skipped_witness :
    (sampleEnv RangeOrder.insertion).GetLoadDistributionPolicy
      (sampleBackend "ns1" "missing").Namespace
      (sampleBackend "ns1" "missing").Backend.Resource.Name = Except.error "not found" ∧
    (getLoadDistributionPolicies (sampleEnv RangeOrder.insertion) sampleBuilder
      { backendIds := [sampleBackend "ns1" "ldp1"] ++
          sampleBackend "ns1" "missing" :: [sampleBackend "ns1" "ldp0"] }).ldps =
    (getLoadDistributionPolicies (sampleEnv RangeOrder.insertion) sampleBuilder
      { backendIds := [sampleBackend "ns1" "ldp1"] ++ [sampleBackend "ns1" "ldp0"] }).ldps ∧
    (getLoadDistributionPolicies (sampleEnv RangeOrder.insertion) sampleBuilder
      { backendIds := [sampleBackend "ns1" "ldp1"] ++
          sampleBackend "ns1" "missing" :: [sampleBackend "ns1" "ldp0"] }).ldps.map
        (fun p => p.Name) = ["ldp-ns1-ldp1", "ldp-ns1-ldp0"] :=
  ⟨rfl,
    (getLoadDistributionPolicies_fetch_failure_skipped (sampleEnv RangeOrder.insertion)
      sampleBuilder [sampleBackend "ns1" "ldp1"] [sampleBackend "ns1" "ldp0"]
      (sampleBackend "ns1" "missing") "not found" rfl).1,
    by decide⟩

/-! ## Claims on determinism and on the construction of a policy -/

/-- C11: two builds on the same backend set and policy store can differ.  When the
target map of `getTargets` is visited in two different orders, the targets of the
policy `ldp2` come out in two different orders, so the sequences that
`LoadDistributionPolicy` writes differ; and when the backend set is visited in two
different orders, the bare name `ldp1`, referenced from two namespaces, is won by two
different backends, so the written policies differ in name. -/
theorem LoadDistributionPolicy_depends_on_range_order :
    ((LoadDistributionPolicy (twoTargetEnv RangeOrder.insertion) sampleBuilder
        { backendIds := [sampleBackend "ns1" "ldp2"] }).c.appGw.LoadDistributionPolicies.map
        (fun ldps => ldps.map (fun p => p.LoadDistributionTargets.map (fun t => t.Name)))
      = some [["ldp2-target-0", "ldp2-target-1"]] ∧
     (LoadDistributionPolicy (twoTargetEnv RangeOrder.reversed) sampleBuilder
        { backendIds := [sampleBackend "ns1" "ldp2"] }).c.appGw.LoadDistributionPolicies.map
        (fun ldps => ldps.map (fun p => p.LoadDistributionTargets.map (fun t => t.Name)))
      = some [["ldp2-target-1", "ldp2-target-0"]] ∧
     (LoadDistributionPolicy (twoTargetEnv RangeOrder.insertion) sampleBuilder
        { backendIds := [sampleBackend "ns1" "ldp2"] }).c.appGw.LoadDistributionPolicies ≠
     (LoadDistributionPolicy (twoTargetEnv RangeOrder.reversed) sampleBuilder
        { backendIds := [sampleBackend "ns1" "ldp2"] }).c.appGw.LoadDistributionPolicies) ∧
    ((LoadDistributionPolicy (sampleEnv RangeOrder.insertion) sampleBuilder
        { backendIds := [sampleBackend "ns1" "ldp1", sampleBackend "ns2" "ldp1"] }
        ).c.appGw.LoadDistributionPolicies.map (fun ldps => ldps.map (fun p => p.Name))
      = some ["ldp-ns1-ldp1"] ∧
     (LoadDistributionPolicy (sampleEnv RangeOrder.insertion) sampleBuilder
        { backendIds := [sampleBackend "ns2" "ldp1", sampleBackend "ns1" "ldp1"] }
        ).c.appGw.LoadDistributionPolicies.map (fun ldps => ldps.map (fun p => p.Name))
      = some ["ldp-ns2-ldp1"]) := by
  decide

theorem getTargets_samplePolicyNs1 (env : Env) (c : appGwConfigBuilder)
    (b : backendIdentifier) (hns : b.Namespace = "ns1") :
    getTargets env c b samplePolicyNs1 =
      [{ Etag := "*"
         Name := "ldp1-target-0"
         ID := env.ldpTargetID "ldp1" "ldp1-target-0"
         WeightPerServer := 3
         BackendAddressPool :=
           { ID := env.AddressPoolID
               (env.generateAddressPoolName "ns1-svcA"
                 (env.serviceBackendPortToStr { Name := "", Number := 80 })
                 (lookupPortPair c.mem.serviceBackendPairsByBackend b).BackendPort) } }] := by
  have h3 : ¬ toInt32 3 < 1 := by decide
  have h3v : toInt32 3 = 3 := by decide
  have h31 : ¬ (3 : Int) < 1 := by decide
  have h0 : toInt32 0 < 1 := by decide
  have hn : "ldp1" ++ "-target-" ++ formatInt 0 = "ldp1-target-0" := by decide
  have hs : "ns1" ++ "-" ++ "svcA" = "ns1-svcA" := by decide
  unfold getTargets
  rw [getTargetsMap_eq]
  simp only [samplePolicyNs1, keptEntries, h0, h3, if_true, if_false, GoMap.rangeValues,
    RangeOrder.shuffle_singleton, List.map_cons, List.map_nil, newTargetAt, targetNameAt,
    h3v, h31, hn, hns, hs]

theorem getLoadDistributionPolicies_single (env : Env) (c : appGwConfigBuilder)
    (b : backendIdentifier) (ldp : v1.LoadDistributionPolicy)
    (h : c.mem.loadDistributionPolicies = none) (hl : env.isLDPBackend b = true)
    (hf : env.GetLoadDistributionPolicy b.Namespace b.Backend.Resource.Name = Except.ok ldp) :
    (getLoadDistributionPolicies env c { backendIds := [b] }).ldps = [buildPolicy env c b ldp] := by
  rw [getLoadDistributionPolicies_miss env c _ h]
  simp only [newBackendIdsFiltered]
  rw [loop_cons, loop_nil,
    step_ok env c LoopState.initial b ldp hl (by simp [LoopState.initial, GoMap.has, GoMap.find]) hf]
  simp [LoopState.initial, GoMap.store, GoMap.rangeValues, RangeOrder.shuffle_singleton]

/-- C12: construction of a policy.  On an empty cache, for every backend that wins the
dedup of its bare policy name with a successful fetch the output holds a policy whose
name is synthesized from the namespace and the policy name of the backend, whose
identifier is synthesized from that name, whose algorithm is round robin and whose
targets are those of `getTargets` for the backend and the fetched policy; every output
policy is of this form.  When the only backend is bound to `ldp1` of `ns1` and the
store returns the targets `svcA/80` of weight 3 and `svcB/80` of weight 0, the output
is one policy with the single target `ldp1-target-0` of weight 3 whose pool is the one
of `ns1-svcA`, port 80. -/
theorem getLoadDistributionPolicies_policy_construction (env : Env) (c : appGwConfigBuilder)
    (cbCtx : ConfigBuilderContext) (h : c.mem.loadDistributionPolicies = none) :
    (∀ w ldpName, firstWinner env (newBackendIdsFiltered cbCtx) ldpName = some w →
      ∃ p ∈ (getLoadDistributionPolicies env c cbCtx).ldps,
        p.Name = env.generateLoadDistributionName w.1.Namespace w.1.Backend.Resource.Name ∧
        p.ID = env.loadDistributionPolicyID
          (env.generateLoadDistributionName w.1.Namespace w.1.Backend.Resource.Name) ∧
        p.LoadDistributionAlgorithm = ApplicationGatewayLoadDistributionAlgorithm.RoundRobin ∧
        p.LoadDistributionTargets = getTargets env c w.1 w.2) ∧
    (∀ p ∈ (getLoadDistributionPolicies env c cbCtx).ldps,
      ∃ w ldpName, firstWinner env (newBackendIdsFiltered cbCtx) ldpName = some w ∧
        p.Name = env.generateLoadDistributionName w.1.Namespace w.1.Backend.Resource.Name ∧
        p.ID = env.loadDistributionPolicyID
          (env.generateLoadDistributionName w.1.Namespace w.1.Backend.Resource.Name) ∧
        p.LoadDistributionAlgorithm = ApplicationGatewayLoadDistributionAlgorithm.RoundRobin ∧
        p.LoadDistributionTargets = getTargets env c w.1 w.2) ∧
    (∀ b, cbCtx.backendIds = [b] → env.isLDPBackend b = true → b.Namespace = "ns1" →
      b.Backend.Resource.Name = "ldp1" →
      env.GetLoadDistributionPolicy "ns1" "ldp1" = Except.ok samplePolicyNs1 →
      (getLoadDistributionPolicies env c cbCtx).ldps =
        [{ Name := env.generateLoadDistributionName "ns1" "ldp1"
           ID := env.loadDistributionPolicyID (env.generateLoadDistributionName "ns1" "ldp1")
           LoadDistributionAlgorithm := ApplicationGatewayLoadDistributionAlgorithm.RoundRobin
           LoadDistributionTargets :=
             [{ Etag := "*"
                Name := "ldp1-target-0"
                ID := env.ldpTargetID "ldp1" "ldp1-target-0"
                WeightPerServer := 3
                BackendAddressPool :=
                  { ID := env.AddressPoolID
                      (env.generateAddressPoolName "ns1-svcA"
                        (env.serviceBackendPortToStr { Name := "", Number := 80 })
                        (lookupPortPair c.mem.serviceBackendPairsByBackend b).BackendPort) } }] }]) := by
  refine ⟨?_, ?_, ?_⟩
  · intro w ldpName hw
    exact ⟨buildPolicy env c w.1 w.2,
      (mem_getLoadDistributionPolicies env c cbCtx h _).2 ⟨w, ldpName, hw, rfl⟩,
      rfl, rfl, rfl, rfl⟩
  · intro p hp
    obtain ⟨w, ldpName, hw, rfl⟩ := (mem_getLoadDistributionPolicies env c cbCtx h p).1 hp
    exact ⟨w, ldpName, hw, rfl, rfl, rfl, rfl⟩
  · intro b hb hl hns hname hf
    have hctx : cbCtx = { backendIds := [b] } := by
      cases cbCtx
      simp only [ConfigBuilderContext.mk.injEq]
      exact hb
    have hf2 : env.GetLoadDistributionPolicy b.Namespace b.Backend.Resource.Name =
        Except.ok samplePolicyNs1 := by rw [hns, hname]; exact hf
    rw [hctx, getLoadDistributionPolicies_single env c b samplePolicyNs1 h hl hf2]
    simp only [buildPolicy, hns, hname, getTargets_samplePolicyNs1 env c b hns]

/-- The scenario of the specification on the sample build: one policy, one target. -/
theorem getLoadDistributionPolicies_policy_construction_witness :
    sampleBuilder.mem.loadDistributionPolicies = none ∧
    (getLoadDistributionPolicies (sampleEnv RangeOrder.reversed) sampleBuilder
        { backendIds := [sampleBackend "ns1" "ldp1"] }).ldps =
      [{ Name := "ldp-ns1-ldp1"
         ID := "/loadDistributionPolicies/ldp-ns1-ldp1"
         LoadDistributionAlgorithm := ApplicationGatewayLoadDistributionAlgorithm.RoundRobin
         LoadDistributionTargets :=
           [{ Etag := "*"
              Name := "ldp1-target-0"
              ID := "/loadDistributionPolicies/ldp1/targets/ldp1-target-0"
              WeightPerServer := 3
              BackendAddressPool := { ID := "/backendAddressPools/pool-ns1-svcA-80-bp-8080" } }] }] :=
  ⟨rfl,
    ((getLoadDistributionPolicies_policy_construction (sampleEnv RangeOrder.reversed)
      sampleBuilder { backendIds := [sampleBackend "ns1" "ldp1"] } rfl).2.2
      (sampleBackend "ns1" "ldp1") rfl rfl rfl rfl rfl).trans (by decide)⟩

/-! ## Further claims on `getTargets` -/

theorem lookupPortPair_of_not_mem (m : List (backendIdentifier × serviceBackendPortPair))
    (backendID : backendIdentifier) (h : ∀ e ∈ m, e.1 ≠ backendID) :
    lookupPortPair m backendID = { ServicePort := 0, BackendPort := 0 } := by
  induction m with
  | nil => rfl
  | cons e rest ih =>
    obtain ⟨k, v⟩ := e
    have hk : ¬ k = backendID := h (k, v) (List.mem_cons_self _ _)
    simp only [lookupPortPair, hk, if_false]
    exact ih (fun e1 he1 => h e1 (List.mem_cons_of_mem _ he1))

theorem lookupPortPair_of_mem (m : List (backendIdentifier × serviceBackendPortPair))
    (backendID : backendIdentifier) (pair : serviceBackendPortPair)
    (hn : (m.map Prod.fst).Nodup) (h : (backendID, pair) ∈ m) :
    lookupPortPair m backendID = pair := by
  induction m with
  | nil => cases h
  | cons e rest ih =>
    obtain ⟨k, v⟩ := e
    simp only [List.map_cons, List.nodup_cons] at hn
    rcases List.mem_cons.1 h with h1 | h1
    · cases h1
      simp [lookupPortPair]
    · have hk : ¬ k = backendID := fun hkb =>
        hn.1 (hkb ▸ List.mem_map.2 ⟨(backendID, pair), h1, rfl⟩)
      simp only [lookupPortPair, hk, if_false]
      exact ih hn.2 h1

/-- C13: pool reference of a target.  Every target that `getTargets` returns comes from
a kept declaration and refers to its pool by identifier only: the identifier is
`AddressPoolID` of the pool name generated from the namespace of the backend joined by
a hyphen with the service name of the declaration, the service port of the declaration
rendered as a string, and the backend port resolved for the backend identifier; every
kept declaration has such a target; the resolved port is one value for the whole
policy, the port of the entry of the backend in the port map and the zero port when
the map has no entry for it. -/
theorem getTargets_pool_reference (env : Env) (c : appGwConfigBuilder)
    (backendID : backendIdentifier) (k8sLDP : v1.LoadDistributionPolicy) :
    ∃ backendPort : Int,
      backendPort = (lookupPortPair c.mem.serviceBackendPairsByBackend backendID).BackendPort ∧
      ((∀ e ∈ c.mem.serviceBackendPairsByBackend, e.1 ≠ backendID) → backendPort = 0) ∧
      (∀ pair, (c.mem.serviceBackendPairsByBackend.map Prod.fst).Nodup →
        (backendID, pair) ∈ c.mem.serviceBackendPairsByBackend →
        backendPort = pair.BackendPort) ∧
      (∀ out ∈ getTargets env c backendID k8sLDP,
        ∃ i t, k8sLDP.Spec.Targets.get? i = some t ∧ 1 ≤ toInt32 t.Weight ∧
          out.Name = k8sLDP.Name ++ "-target-" ++ formatInt i ∧
          out.BackendAddressPool =
            { ID := env.AddressPoolID
                (env.generateAddressPoolName
                  (backendID.Namespace ++ "-" ++ t.Backend.Service.Name)
                  (env.serviceBackendPortToStr t.Backend.Service.Port) backendPort) }) ∧
      (∀ i t, k8sLDP.Spec.Targets.get? i = some t → 1 ≤ toInt32 t.Weight →
        ∃ out ∈ getTargets env c backendID k8sLDP,
          out.Name = k8sLDP.Name ++ "-target-" ++ formatInt i ∧
          out.BackendAddressPool =
            { ID := env.AddressPoolID
                (env.generateAddressPoolName
                  (backendID.Namespace ++ "-" ++ t.Backend.Service.Name)
                  (env.serviceBackendPortToStr t.Backend.Service.Port) backendPort) }) := by
  refine ⟨_, rfl, ?_, ?_, ?_, ?_⟩
  · intro hno
    rw [lookupPortPair_of_not_mem _ _ hno]
  · intro pair hn hmem
    rw [lookupPortPair_of_mem _ _ pair hn hmem]
  · intro out hout
    obtain ⟨i, t, ht, hw, rfl⟩ := (mem_getTargets _ _ _ _ _).1 hout
    exact ⟨i, t, ht, hw, rfl, rfl⟩
  · intro i t ht hw
    exact ⟨_, (mem_getTargets _ _ _ _ _).2 ⟨i, t, ht, hw, rfl⟩, rfl, rfl⟩

theorem length_keptEntries (env : Env) (backendID : backendIdentifier)
    (pair : serviceBackendPortPair) (k8sLDP : v1.LoadDistributionPolicy)
    (ts : List Target) (i : Nat) :
    (keptEntries env backendID pair k8sLDP ts i).length =
      ts.countP (fun t => decide (1 ≤ toInt32 t.Weight)) := by
  induction ts generalizing i with
  | nil => rfl
  | cons t rest ih =>
    unfold keptEntries
    by_cases hw : toInt32 t.Weight < 1
    · have hd : decide (1 ≤ toInt32 t.Weight) = false := by
        simp only [decide_eq_false_iff_not]; omega
      rw [if_pos hw, ih]
      simp [List.countP_cons, hd]
    · have hd : decide (1 ≤ toInt32 t.Weight) = true := by
        simp only [decide_eq_true_eq]; omega
      rw [if_neg hw, List.length_cons, ih]
      simp [List.countP_cons, hd]

/-- C16: the name-keyed map of `getTargets` never collapses two targets: the names of
the returned targets are pairwise distinct, their number is the number of declared
targets whose weight converted to `int32` is at least 1, and two declaration indices
that synthesize the same target name are equal. -/
theorem getTargets_never_collapses (env : Env) (c : appGwConfigBuilder)
    (backendID : backendIdentifier) (k8sLDP : v1.LoadDistributionPolicy) :
    ((getTargets env c backendID k8sLDP).map (fun out => out.Name)).Nodup ∧
    (getTargets env c backendID k8sLDP).length =
      k8sLDP.Spec.Targets.countP (fun t => decide (1 ≤ toInt32 t.Weight)) ∧
    (∀ i j : Nat, k8sLDP.Name ++ "-target-" ++ formatInt i =
      k8sLDP.Name ++ "-target-" ++ formatInt j → i = j) := by
  refine ⟨getTargets_names_nodup env c backendID k8sLDP, ?_,
    fun i j hij => targetNameAt_injective k8sLDP i j hij⟩
  rw [(getTargets_perm env c backendID k8sLDP).length_eq, List.length_map, length_keptEntries]

theorem keptEntries_projection (env : Env) (b1 b2 : backendIdentifier)
    (p1 p2 : serviceBackendPortPair) (k8sLDP : v1.LoadDistributionPolicy)
    (ts : List Target) (i : Nat) :
    ((keptEntries env b1 p1 k8sLDP ts i).map Prod.snd).map
        (fun out => (out.Etag, out.Name, out.ID, out.WeightPerServer)) =
      ((keptEntries env b2 p2 k8sLDP ts i).map Prod.snd).map
        (fun out => (out.Etag, out.Name, out.ID, out.WeightPerServer)) := by
  induction ts generalizing i with
  | nil => rfl
  | cons t rest ih =>
    unfold keptEntries
    by_cases hw : toInt32 t.Weight < 1
    · rw [if_pos hw, if_pos hw]; exact ih (i + 1)
    · rw [if_neg hw, if_neg hw]
      simp only [List.map_cons, newTargetAt, ih (i + 1)]

/-- C18: the names, identifiers and weights of the targets depend on the fetched policy
only.  For one policy and any two backend identifiers, on any two builders, the two
results of `getTargets` carry the same targets up to the pool reference (the same tags,
names, identifiers and weights, as a rearrangement of one another), and every target
is identified by `ldpTargetID` of the bare name of the policy and of the target name
`<policyName>-target-<i>`. -/
theorem getTargets_independent_of_backend (env : Env) (c1 c2 : appGwConfigBuilder)
    (b1 b2 : backendIdentifier) (k8sLDP : v1.LoadDistributionPolicy) :
    (((getTargets env c1 b1 k8sLDP).map
        (fun out => (out.Etag, out.Name, out.ID, out.WeightPerServer))).Perm
      ((getTargets env c2 b2 k8sLDP).map
        (fun out => (out.Etag, out.Name, out.ID, out.WeightPerServer)))) ∧
    (∀ out ∈ getTargets env c1 b1 k8sLDP,
      ∃ i t, k8sLDP.Spec.Targets.get? i = some t ∧
        out.Name = k8sLDP.Name ++ "-target-" ++ formatInt i ∧
        out.ID = env.ldpTargetID k8sLDP.Name (k8sLDP.Name ++ "-target-" ++ formatInt i) ∧
        out.WeightPerServer = toInt32 t.Weight) := by
  refine ⟨?_, ?_⟩
  · refine ((getTargets_perm env c1 b1 k8sLDP).map _).trans ?_
    rw [keptEntries_projection env b1 b2 _
      (lookupPortPair c2.mem.serviceBackendPairsByBackend b2)]
    exact ((getTargets_perm env c2 b2 k8sLDP).map _).symm
  · intro out hout
    obtain ⟨i, t, ht, _, rfl⟩ := (mem_getTargets _ _ _ _ _).1 hout
    exact ⟨i, t, ht, rfl, rfl, rfl⟩

/-! ## Further claims on the cache and on the number of policies -/

theorem loop_of_none_ldp (env : Env) (c : appGwConfigBuilder) (bs : List backendIdentifier)
    (st : LoopState) (h : ∀ b ∈ bs, env.isLDPBackend b = false) :
    getLoadDistributionPoliciesLoop env c bs st = st := by
  induction bs generalizing st with
  | nil => rfl
  | cons b rest ih =>
    rw [loop_cons, step_not_ldp env c st b (h b (List.mem_cons_self _ _))]
    exact ih st (fun b1 hb1 => h b1 (List.mem_cons_of_mem _ hb1))

/-- C14: when no backend of the set is policy-bound, the empty set included, and the
cache is empty, `getLoadDistributionPolicies` returns the empty sequence without any
fetch and assigns that empty sequence to the cache of its receiver; the builder of
the caller holds it afterwards when `mem` is held by pointer.  On the sample builder,
which holds `mem` by value, the cache of the caller is still nil after the call: the
method has a value receiver and the assignment of line 71 is made on a copy. -/
theorem getLoadDistributionPolicies_no_policy_bound :
    (∀ (env : Env) (c : appGwConfigBuilder) (cbCtx : ConfigBuilderContext),
      c.mem.loadDistributionPolicies = none →
      (∀ b ∈ newBackendIdsFiltered cbCtx, env.isLDPBackend b = false) →
      (getLoadDistributionPolicies env c cbCtx).ldps = [] ∧
      (getLoadDistributionPolicies env c cbCtx).trace = [] ∧
      (getLoadDistributionPolicies env c cbCtx).receiver.mem.loadDistributionPolicies
        = some [] ∧
      (c.memByPointer = true →
        (getLoadDistributionPolicies env c cbCtx).c.mem.loadDistributionPolicies = some [])) ∧
    ((getLoadDistributionPolicies (sampleEnv RangeOrder.insertion) sampleBuilder
        { backendIds := [sampleServiceBackend "ns1" "svcA",
            sampleServiceBackend "ns1" "ldp1"] }).ldps = [] ∧
     (getLoadDistributionPolicies (sampleEnv RangeOrder.insertion) sampleBuilder
        { backendIds := [sampleServiceBackend "ns1" "svcA",
            sampleServiceBackend "ns1" "ldp1"] }).trace = [] ∧
     (getLoadDistributionPolicies (sampleEnv RangeOrder.insertion) sampleBuilder
        { backendIds := [sampleServiceBackend "ns1" "svcA",
            sampleServiceBackend "ns1" "ldp1"] }).c.mem.loadDistributionPolicies = none) := by
  refine ⟨?_, by decide⟩
  intro env c cbCtx h hn
  rw [getLoadDistributionPolicies_miss env c cbCtx h, loop_of_none_ldp env c _ _ hn]
  refine ⟨?_, rfl, ?_, ?_⟩
  · simp [LoopState.initial, GoMap.rangeValues, RangeOrder.shuffle_nil]
  · simp [LoopState.initial, GoMap.rangeValues, RangeOrder.shuffle_nil]
  · intro hp
    simp [hp, LoopState.initial, GoMap.rangeValues, RangeOrder.shuffle_nil]

/-- On the backends `ns1/ldp1`, `ns1/ldp0`, visited and flattened in that order, the
sequence that `getLoadDistributionPolicies` computes, assigns to the cache of its
receiver and returns holds `ldp1` before `ldp0`: it is not ascending by name.  The
builder of a caller that holds `mem` by pointer has that sequence in its cache. -/
theorem getLoadDistributionPolicies_cache_not_sorted :
    ∃ stored,
      (getLoadDistributionPolicies (sampleEnv RangeOrder.insertion) sampleBuilder
        { backendIds := [sampleBackend "ns1" "ldp1", sampleBackend "ns1" "ldp0"] }
        ).receiver.mem.loadDistributionPolicies = some stored ∧
      (getLoadDistributionPolicies (sampleEnv RangeOrder.insertion) sampleBuilder
        { backendIds := [sampleBackend "ns1" "ldp1", sampleBackend "ns1" "ldp0"] }
        ).ldps = stored ∧
      (getLoadDistributionPolicies (sampleEnv RangeOrder.insertion) sampleBuilderByPointer
        { backendIds := [sampleBackend "ns1" "ldp1", sampleBackend "ns1" "ldp0"] }
        ).c.mem.loadDistributionPolicies = some stored ∧
      stored.map (fun p => p.Name) = ["ldp-ns1-ldp1", "ldp-ns1-ldp0"] ∧
      ¬ List.Sorted (fun a b => a.Name ≤ b.Name) stored := by
  have hlt : "ldp-ns1-ldp0" < "ldp-ns1-ldp1" := String.lt_iff_toList_lt.2 (by decide)
  have hnames : (getLoadDistributionPolicies (sampleEnv RangeOrder.insertion) sampleBuilder
      { backendIds := [sampleBackend "ns1" "ldp1", sampleBackend "ns1" "ldp0"] }).ldps.map
        (fun p => p.Name) = ["ldp-ns1-ldp1", "ldp-ns1-ldp0"] := by decide
  refine ⟨_, rfl, rfl, by decide, hnames, fun hs => ?_⟩
  have h2 : List.Pairwise (fun a b : String => a ≤ b)
      ((getLoadDistributionPolicies (sampleEnv RangeOrder.insertion) sampleBuilder
        { backendIds := [sampleBackend "ns1" "ldp1", sampleBackend "ns1" "ldp0"] }).ldps.map
          (fun p => p.Name)) := List.pairwise_map.2 hs
  rw [hnames] at h2
  have h3 : "ldp-ns1-ldp1" ≤ "ldp-ns1-ldp0" := by
    simpa using h2
  exact absurd hlt (not_lt.2 h3)

/-- C15 (amended): on a cache miss the sequence that `getLoadDistributionPolicies`
assigns to the cache of its receiver is the one it returns: the values of the policy
map in the order the range visits them, a rearrangement of the built policies that is
not sorted.  The sort by policy name happens afterwards, in `LoadDistributionPolicy`,
on the returned sequence: the sequence written into the gateway is sorted, ascending,
and a rearrangement of the returned one. -/
theorem getLoadDistributionPolicies_caches_range_order (env : Env) (c : appGwConfigBuilder)
    (cbCtx : ConfigBuilderContext) (h : c.mem.loadDistributionPolicies = none) :
    (getLoadDistributionPolicies env c cbCtx).receiver.mem.loadDistributionPolicies =
      some (getLoadDistributionPolicies env c cbCtx).ldps ∧
    (getLoadDistributionPolicies env c cbCtx).ldps =
      GoMap.rangeValues env.rangeOrder
        (getLoadDistributionPoliciesLoop env c (newBackendIdsFiltered cbCtx)
          LoopState.initial).policies ∧
    (getLoadDistributionPolicies env c cbCtx).ldps.Perm
      ((getLoadDistributionPoliciesLoop env c (newBackendIdsFiltered cbCtx)
        LoopState.initial).policies.map Prod.snd) ∧
    (∃ written,
      (LoadDistributionPolicy env c cbCtx).c.appGw.LoadDistributionPolicies = some written ∧
      List.Sorted (fun a b => a.Name ≤ b.Name) written ∧
      written.Perm (getLoadDistributionPolicies env c cbCtx).ldps) := by
  have hmiss := getLoadDistributionPolicies_miss env c cbCtx h
  refine ⟨by rw [hmiss], by rw [hmiss], ?_, written_sorted_perm env c cbCtx⟩
  rw [hmiss]
  exact GoMap.rangeValues_perm _ _

/-- On the sample build the sequence assigned to the cache holds `ldp1` before
`ldp0`. -/
theorem getLoadDistributionPolicies_caches_range_order_witness :
    sampleBuilder.mem.loadDistributionPolicies = none ∧
    (getLoadDistributionPolicies (sampleEnv RangeOrder.insertion) sampleBuilder
      { backendIds := [sampleBackend "ns1" "ldp1", sampleBackend "ns1" "ldp0"] }
      ).receiver.mem.loadDistributionPolicies =
      some (getLoadDistributionPolicies (sampleEnv RangeOrder.insertion) sampleBuilder
        { backendIds := [sampleBackend "ns1" "ldp1", sampleBackend "ns1" "ldp0"] }).ldps ∧
    (getLoadDistributionPolicies (sampleEnv RangeOrder.insertion) sampleBuilder
      { backendIds := [sampleBackend "ns1" "ldp1", sampleBackend "ns1" "ldp0"] }).ldps.map
        (fun p => p.Name) = ["ldp-ns1-ldp1", "ldp-ns1-ldp0"] :=
  ⟨rfl,
    (getLoadDistributionPolicies_caches_range_order (sampleEnv RangeOrder.insertion)
      sampleBuilder
      { backendIds := [sampleBackend "ns1" "ldp1", sampleBackend "ns1" "ldp0"] } rfl).1,
    by decide⟩

theorem loop_filter_ldp (env : Env) (c : appGwConfigBuilder) (bs : List backendIdentifier)
    (st : LoopState) :
    getLoadDistributionPoliciesLoop env c (bs.filter env.isLDPBackend) st =
      getLoadDistributionPoliciesLoop env c bs st := by
  induction bs generalizing st with
  | nil => rfl
  | cons b rest ih =>
    cases hl : env.isLDPBackend b with
    | false =>
      rw [List.filter_cons_of_neg (by simp [hl]), loop_cons, step_not_ldp env c st b hl]
      exact ih st
    | true =>
      rw [List.filter_cons_of_pos hl, loop_cons, loop_cons]
      exact ih _

theorem mem_keys_loop_initial (env : Env) (c : appGwConfigBuilder)
    (bs : List backendIdentifier) (ldpName : String) :
    ldpName ∈ GoMap.keys (getLoadDistributionPoliciesLoop env c bs LoopState.initial).policies ↔
      ldpName ∈ ((bs.filter (fun b => env.isLDPBackend b && fetchSucceeds env b)).map
        (fun b => b.Backend.Resource.Name)).dedup := by
  rw [← GoMap.has_iff_mem_keys, List.mem_dedup, List.mem_map]
  simp only [GoMap.has, find_loop_initial, Option.isSome_map', List.mem_filter,
    Bool.and_eq_true]
  constructor
  · intro hsome
    cases hw : firstWinner env bs ldpName with
    | none => rw [hw] at hsome; cases hsome
    | some w =>
      obtain ⟨b, ldp⟩ := w
      obtain ⟨h1, h2, h3, h4⟩ := firstWinner_spec env bs ldpName b ldp hw
      exact ⟨b, ⟨h1, h2, by simp [fetchSucceeds, h4]⟩, h3⟩
  · rintro ⟨b, ⟨h1, h2, h3⟩, rfl⟩
    cases hf : env.GetLoadDistributionPolicy b.Namespace b.Backend.Resource.Name with
    | error e => simp [fetchSucceeds, hf] at h3
    | ok ldp =>
      obtain ⟨w, hw⟩ := firstWinner_isSome env bs b ldp h1 h2 hf
      rw [hw]
      rfl

theorem length_getLoadDistributionPolicies (env : Env) (c : appGwConfigBuilder)
    (cbCtx : ConfigBuilderContext) (h : c.mem.loadDistributionPolicies = none) :
    (getLoadDistributionPolicies env c cbCtx).ldps.length =
      (((newBackendIdsFiltered cbCtx).filter
        (fun b => env.isLDPBackend b && fetchSucceeds env b)).map
        (fun b => b.Backend.Resource.Name)).dedup.length := by
  rw [getLoadDistributionPolicies_miss env c cbCtx h]
  simp only []
  rw [(GoMap.rangeValues_perm _ _).length_eq, List.length_map]
  have hperm : (GoMap.keys (getLoadDistributionPoliciesLoop env c
      (newBackendIdsFiltered cbCtx) LoopState.initial).policies).Perm
      (((newBackendIdsFiltered cbCtx).filter
        (fun b => env.isLDPBackend b && fetchSucceeds env b)).map
        (fun b => b.Backend.Resource.Name)).dedup :=
    (List.perm_ext_iff_of_nodup (nodup_keys_loop_initial env c _) (List.nodup_dedup _)).2
      (fun a => mem_keys_loop_initial env c _ a)
  rw [← hperm.length_eq, GoMap.keys, List.length_map]

/-- C17: on a cache miss the number of policies that `getLoadDistributionPolicies`
returns is the number of distinct bare policy names referenced by a policy-bound
backend whose fetch succeeds; it is the same for every processing order of the backend
set; and the backends that are not policy-bound contribute nothing: without them the
result, its trace included, is the same. -/
theorem getLoadDistributionPolicies_count (env : Env) (c : appGwConfigBuilder)
    (cbCtx : ConfigBuilderContext) (h : c.mem.loadDistributionPolicies = none) :
    (getLoadDistributionPolicies env c cbCtx).ldps.length =
      (((newBackendIdsFiltered cbCtx).filter
        (fun b => env.isLDPBackend b && fetchSucceeds env b)).map
        (fun b => b.Backend.Resource.Name)).dedup.length ∧
    (∀ cbCtx2 : ConfigBuilderContext,
      (newBackendIdsFiltered cbCtx2).Perm (newBackendIdsFiltered cbCtx) →
      (getLoadDistributionPolicies env c cbCtx2).ldps.length =
        (getLoadDistributionPolicies env c cbCtx).ldps.length) ∧
    getLoadDistributionPolicies env c
        { backendIds := (newBackendIdsFiltered cbCtx).filter env.isLDPBackend } =
      getLoadDistributionPolicies env c cbCtx := by
  refine ⟨length_getLoadDistributionPolicies env c cbCtx h, ?_, ?_⟩
  · intro cbCtx2 hperm
    rw [length_getLoadDistributionPolicies env c cbCtx h,
      length_getLoadDistributionPolicies env c cbCtx2 h]
    exact (((hperm.filter _).map _).dedup).length_eq
  · rw [getLoadDistributionPolicies_miss env c cbCtx h,
      getLoadDistributionPolicies_miss env c _ h]
    simp only [newBackendIdsFiltered, loop_filter_ldp]

/-- On the sample build five backends reference two bare names with a successful
fetch: two policies are returned. -/
theorem getLoadDistributionPolicies_count_witness :
    sampleBuilder.mem.loadDistributionPolicies = none ∧
    (getLoadDistributionPolicies (sampleEnv RangeOrder.insertion) sampleBuilder
      { backendIds := [sampleBackend "ns1" "ldp1", sampleServiceBackend "ns1" "svcA",
          sampleBackend "ns2" "ldp1", sampleBackend "ns1" "missing",
          sampleBackend "ns1" "ldp0"] }).ldps.length =
      (([sampleBackend "ns1" "ldp1", sampleServiceBackend "ns1" "svcA",
          sampleBackend "ns2" "ldp1", sampleBackend "ns1" "missing",
          sampleBackend "ns1" "ldp0"].filter
        (fun b => (sampleEnv RangeOrder.insertion).isLDPBackend b &&
          fetchSucceeds (sampleEnv RangeOrder.insertion) b)).map
        (fun b => b.Backend.Resource.Name)).dedup.length ∧
    (getLoadDistributionPolicies (sampleEnv RangeOrder.insertion) sampleBuilder
      { backendIds := [sampleBackend "ns1" "ldp1", sampleServiceBackend "ns1" "svcA",
          sampleBackend "ns2" "ldp1", sampleBackend "ns1" "missing",
          sampleBackend "ns1" "ldp0"] }).ldps.length = 2 :=
  ⟨rfl,
    (getLoadDistributionPolicies_count (sampleEnv RangeOrder.insertion) sampleBuilder
      { backendIds := [sampleBackend "ns1" "ldp1", sampleServiceBackend "ns1" "svcA",
          sampleBackend "ns2" "ldp1", sampleBackend "ns1" "missing",
          sampleBackend "ns1" "ldp0"] } rfl).1,
    by decide⟩

/-! ## Determinism up to the order of the targets -/

theorem keptEntries_rangeOrder (env : Env) (o2 : RangeOrder) (backendID : backendIdentifier)
    (pair : serviceBackendPortPair) (k8sLDP : v1.LoadDistributionPolicy)
    (ts : List Target) (i : Nat) :
    keptEntries { env with rangeOrder := o2 } backendID pair k8sLDP ts i =
      keptEntries env backendID pair k8sLDP ts i := by
  induction ts generalizing i with
  | nil => rfl
  | cons t rest ih =>
    unfold keptEntries
    rw [ih (i + 1)]
    rfl

theorem getTargets_rangeOrder_perm (env : Env) (o2 : RangeOrder) (c : appGwConfigBuilder)
    (backendID : backendIdentifier) (k8sLDP : v1.LoadDistributionPolicy) :
    (getTargets env c backendID k8sLDP).Perm
      (getTargets { env with rangeOrder := o2 } c backendID k8sLDP) := by
  refine (getTargets_perm env c backendID k8sLDP).trans ?_
  rw [← keptEntries_rangeOrder env o2]
  exact (getTargets_perm { env with rangeOrder := o2 } c backendID k8sLDP).symm

theorem buildPolicy_rangeOrder_rel (env : Env) (o2 : RangeOrder) (c : appGwConfigBuilder)
    (b : backendIdentifier) (ldp : v1.LoadDistributionPolicy) :
    PolicyRel (buildPolicy env c b ldp) (buildPolicy { env with rangeOrder := o2 } c b ldp) :=
  ⟨rfl, rfl, rfl, getTargets_rangeOrder_perm env o2 c b ldp⟩

theorem has_eq_of_rel (m1 m2 : GoMap ApplicationGatewayLoadDistributionPolicy)
    (h : List.Forall₂ EntryRel m1 m2) (k : String) : GoMap.has m1 k = GoMap.has m2 k := by
  induction h with
  | nil => rfl
  | @cons e1 e2 l1 l2 hab _ ih =>
    obtain ⟨k1, v1⟩ := e1
    obtain ⟨k2, v2⟩ := e2
    have hk : k1 = k2 := hab.1
    subst hk
    by_cases h0 : k1 = k
    · simp [GoMap.has, GoMap.find, h0]
    · simpa [GoMap.has, GoMap.find, h0] using ih

theorem store_rel (m1 m2 : GoMap ApplicationGatewayLoadDistributionPolicy)
    (h : List.Forall₂ EntryRel m1 m2) (k : String)
    (v1 v2 : ApplicationGatewayLoadDistributionPolicy) (hv : PolicyRel v1 v2) :
    List.Forall₂ EntryRel (GoMap.store m1 k v1) (GoMap.store m2 k v2) := by
  induction h with
  | nil => exact List.Forall₂.cons ⟨rfl, hv⟩ List.Forall₂.nil
  | @cons e1 e2 l1 l2 hab htl ih =>
    obtain ⟨k1, w1⟩ := e1
    obtain ⟨k2, w2⟩ := e2
    have hk : k1 = k2 := hab.1
    subst hk
    by_cases h0 : k1 = k
    · simp only [GoMap.store, h0, if_true]
      exact List.Forall₂.cons ⟨rfl, hv⟩ htl
    · simp only [GoMap.store, h0, if_false]
      exact List.Forall₂.cons hab ih

theorem step_rangeOrder_rel (env : Env) (o2 : RangeOrder) (c : appGwConfigBuilder)
    (st1 st2 : LoopState) (b : backendIdentifier)
    (h : List.Forall₂ EntryRel st1.policies st2.policies) :
    List.Forall₂ EntryRel (getLoadDistributionPoliciesStep env c st1 b).policies
      (getLoadDistributionPoliciesStep { env with rangeOrder := o2 } c st2 b).policies := by
  have hhas := has_eq_of_rel _ _ h b.Backend.Resource.Name
  rcases step_cases env c st1 b with ⟨hs, hc⟩ | ⟨e, hl, hh, hf, hs⟩ | ⟨ldp, hl, hh, hf, hs⟩
  · rw [hs]
    rcases hc with hc | hc
    · rw [step_not_ldp { env with rangeOrder := o2 } c st2 b hc]
      exact h
    · rw [step_has { env with rangeOrder := o2 } c st2 b (hhas ▸ hc)]
      exact h
  · rw [hs, step_error { env with rangeOrder := o2 } c st2 b e hl (hhas ▸ hh) hf]
    exact h
  · rw [hs, step_ok { env with rangeOrder := o2 } c st2 b ldp hl (hhas ▸ hh) hf]
    exact store_rel _ _ h _ _ _ (buildPolicy_rangeOrder_rel env o2 c b ldp)

theorem loop_rangeOrder_rel (env : Env) (o2 : RangeOrder) (c : appGwConfigBuilder)
    (bs : List backendIdentifier) (st1 st2 : LoopState)
    (h : List.Forall₂ EntryRel st1.policies st2.policies) :
    List.Forall₂ EntryRel (getLoadDistributionPoliciesLoop env c bs st1).policies
      (getLoadDistributionPoliciesLoop { env with rangeOrder := o2 } c bs st2).policies := by
  induction bs generalizing st1 st2 with
  | nil => exact h
  | cons b rest ih =>
    rw [loop_cons, loop_cons]
    exact ih _ _ (step_rangeOrder_rel env o2 c st1 st2 b h)

theorem forall₂_names_eq (m1 m2 : GoMap ApplicationGatewayLoadDistributionPolicy)
    (h : List.Forall₂ EntryRel m1 m2) :
    m1.map (fun e => e.2.Name) = m2.map (fun e => e.2.Name) := by
  induction h with
  | nil => rfl
  | cons hab _ ih => simp only [List.map_cons, ih, hab.2.1]

theorem forall₂_exists_rel (m1 m2 : GoMap ApplicationGatewayLoadDistributionPolicy)
    (h : List.Forall₂ EntryRel m1 m2) (e1 : String × ApplicationGatewayLoadDistributionPolicy)
    (he : e1 ∈ m1) : ∃ e2 ∈ m2, EntryRel e1 e2 := by
  induction h with
  | nil => cases he
  | cons hab _ ih =>
    rcases List.mem_cons.1 he with h1 | h1
    · subst h1
      exact ⟨_, List.mem_cons_self _ _, hab⟩
    · obtain ⟨e2, h2, h3⟩ := ih h1
      exact ⟨e2, List.mem_cons_of_mem _ h2, h3⟩

theorem policy_shape_of_mem (env : Env) (c : appGwConfigBuilder)
    (cbCtx : ConfigBuilderContext) (h : c.mem.loadDistributionPolicies = none)
    (p : ApplicationGatewayLoadDistributionPolicy)
    (hp : p ∈ (getLoadDistributionPolicies env c cbCtx).ldps) :
    (p.Name, p.ID, p.LoadDistributionAlgorithm) =
      (p.Name, env.loadDistributionPolicyID p.Name,
        ApplicationGatewayLoadDistributionAlgorithm.RoundRobin) := by
  obtain ⟨w, _, _, rfl⟩ := (mem_getLoadDistributionPolicies env c cbCtx h p).1 hp
  rfl

theorem map_shape_of_names (env : Env) (l : List ApplicationGatewayLoadDistributionPolicy)
    (h : ∀ p ∈ l, (p.Name, p.ID, p.LoadDistributionAlgorithm) =
      (p.Name, env.loadDistributionPolicyID p.Name,
        ApplicationGatewayLoadDistributionAlgorithm.RoundRobin)) :
    l.map (fun p => (p.Name, p.ID, p.LoadDistributionAlgorithm)) =
      (l.map (fun p => p.Name)).map (fun n => (n, env.loadDistributionPolicyID n,
        ApplicationGatewayLoadDistributionAlgorithm.RoundRobin)) := by
  rw [List.map_map]
  exact List.map_congr_left (fun p hp => h p hp)

/-- What two builds agree on.  Two builds that start from the same builder with an empty
cache, on the same store and with the backend set processed in the same order, and
that differ in the order in which the two name-keyed maps are visited, write policy
sequences that
agree in the names, identifiers and algorithms of the policies, position by position,
and every policy written by one build has in the other a policy of the same name,
identifier and algorithm whose targets are the same up to their order. -/
theorem LoadDistributionPolicy_deterministic_up_to_targets (env : Env) (o2 : RangeOrder)
    (c : appGwConfigBuilder) (cbCtx : ConfigBuilderContext)
    (h : c.mem.loadDistributionPolicies = none) :
    ∃ written1 written2,
      (LoadDistributionPolicy env c cbCtx).c.appGw.LoadDistributionPolicies = some written1 ∧
      (LoadDistributionPolicy { env with rangeOrder := o2 } c
        cbCtx).c.appGw.LoadDistributionPolicies = some written2 ∧
      written1.map (fun p => (p.Name, p.ID, p.LoadDistributionAlgorithm)) =
        written2.map (fun p => (p.Name, p.ID, p.LoadDistributionAlgorithm)) ∧
      (∀ p1 ∈ written1, ∃ p2 ∈ written2, p1.Name = p2.Name ∧ p1.ID = p2.ID ∧
        p1.LoadDistributionAlgorithm = p2.LoadDistributionAlgorithm ∧
        p1.LoadDistributionTargets.Perm p2.LoadDistributionTargets) := by
  obtain ⟨w1, hw1, hs1, hp1⟩ := written_sorted_perm env c cbCtx
  obtain ⟨w2, hw2, hs2, hp2⟩ :=
    written_sorted_perm { env with rangeOrder := o2 } c cbCtx
  have hrel := loop_rangeOrder_rel env o2 c (newBackendIdsFiltered cbCtx)
    LoopState.initial LoopState.initial List.Forall₂.nil
  have hm1 := getLoadDistributionPolicies_miss env c cbCtx h
  have hm2 := getLoadDistributionPolicies_miss { env with rangeOrder := o2 } c cbCtx h
  have hl1 : (getLoadDistributionPolicies env c cbCtx).ldps.Perm
      ((getLoadDistributionPoliciesLoop env c (newBackendIdsFiltered cbCtx)
        LoopState.initial).policies.map Prod.snd) := by
    rw [hm1]; exact GoMap.rangeValues_perm _ _
  have hl2 : (getLoadDistributionPolicies { env with rangeOrder := o2 } c cbCtx).ldps.Perm
      ((getLoadDistributionPoliciesLoop { env with rangeOrder := o2 } c
        (newBackendIdsFiltered cbCtx) LoopState.initial).policies.map Prod.snd) := by
    rw [hm2]; exact GoMap.rangeValues_perm _ _
  have hnames : w1.map (fun p => p.Name) = w2.map (fun p => p.Name) := by
    apply List.eq_of_perm_of_sorted (r := fun a b : String => a ≤ b)
    · refine ((hp1.trans hl1).map _).trans ?_
      refine List.Perm.trans ?_ ((hp2.trans hl2).map _).symm
      rw [List.map_map, List.map_map]
      exact List.Perm.of_eq (forall₂_names_eq _ _ hrel)
    · exact List.pairwise_map.2 hs1
    · exact List.pairwise_map.2 hs2
  refine ⟨w1, w2, hw1, hw2, ?_, ?_⟩
  · rw [map_shape_of_names env w1
        (fun p hp => policy_shape_of_mem env c cbCtx h p (hp1.mem_iff.1 hp)),
      map_shape_of_names env w2
        (fun p hp => policy_shape_of_mem { env with rangeOrder := o2 } c cbCtx h p
          (hp2.mem_iff.1 hp)),
      hnames]
  · intro p1 hmem1
    obtain ⟨e1, he1, hp1eq⟩ := List.mem_map.1 (hl1.mem_iff.1 (hp1.mem_iff.1 hmem1))
    obtain ⟨e2, he2, hr⟩ := forall₂_exists_rel _ _ hrel e1 he1
    refine ⟨e2.2, hp2.mem_iff.2 (hl2.mem_iff.2 (List.mem_map.2 ⟨e2, he2, rfl⟩)), ?_⟩
    rw [← hp1eq]
    exact hr.2

/-- On the build of the policy with two valid targets, visiting the maps in insertion
order and in the reverse order gives the same policy up to the order of its targets. -/
theorem LoadDistributionPolicy_deterministic_up_to_targets_witness :
    sampleBuilder.mem.loadDistributionPolicies = none ∧
    ∃ written1 written2,
      (LoadDistributionPolicy (twoTargetEnv RangeOrder.insertion) sampleBuilder
        { backendIds := [sampleBackend "ns1" "ldp2"] }).c.appGw.LoadDistributionPolicies
        = some written1 ∧
      (LoadDistributionPolicy
        { twoTargetEnv RangeOrder.insertion with rangeOrder := RangeOrder.reversed }
        sampleBuilder
        { backendIds := [sampleBackend "ns1" "ldp2"] }).c.appGw.LoadDistributionPolicies
        = some written2 ∧
      written1.map (fun p => (p.Name, p.ID, p.LoadDistributionAlgorithm)) =
        written2.map (fun p => (p.Name, p.ID, p.LoadDistributionAlgorithm)) ∧
      (∀ p1 ∈ written1, ∃ p2 ∈ written2, p1.Name = p2.Name ∧ p1.ID = p2.ID ∧
        p1.LoadDistributionAlgorithm = p2.LoadDistributionAlgorithm ∧
        p1.LoadDistributionTargets.Perm p2.LoadDistributionTargets) :=
  ⟨rfl,
    LoadDistributionPolicy_deterministic_up_to_targets (twoTargetEnv RangeOrder.insertion)
      RangeOrder.reversed sampleBuilder { backendIds := [sampleBackend "ns1" "ldp2"] } rfl⟩

/-- Two distinct backends of one namespace that reference the same policy name need
not yield a policy with that name.  When the fetch of `ns1/missing` fails the output is
empty; and when a backend of `ns2` that references the bare name `ldp1` is visited
first, the single policy of the output is the one built for `ns2` (one target, of
weight 5) and neither backend of `ns1` has its policy (one target, of weight 3) in the
output. -/
theorem getLoadDistributionPolicies_same_namespace_without_policy :
    (sampleBackend "ns1" "missing" ≠ sampleBackendOf "ingress-2" "ns1" "missing" ∧
     (getLoadDistributionPolicies (sampleEnv RangeOrder.insertion) sampleBuilder
        { backendIds := [sampleBackend "ns1" "missing",
            sampleBackendOf "ingress-2" "ns1" "missing"] }).ldps = []) ∧
    (sampleBackend "ns1" "ldp1" ≠ sampleBackendOf "ingress-2" "ns1" "ldp1" ∧
     (getLoadDistributionPolicies (sampleEnv RangeOrder.insertion) sampleBuilder
        { backendIds := [sampleBackend "ns2" "ldp1", sampleBackend "ns1" "ldp1",
            sampleBackendOf "ingress-2" "ns1" "ldp1"] }).ldps.map
        (fun p => p.LoadDistributionTargets.map (fun t => t.WeightPerServer)) = [[5]] ∧
     buildPolicy (sampleEnv RangeOrder.insertion) sampleBuilder
        (sampleBackend "ns1" "ldp1") samplePolicyNs1 ∉
      (getLoadDistributionPolicies (sampleEnv RangeOrder.insertion) sampleBuilder
        { backendIds := [sampleBackend "ns2" "ldp1", sampleBackend "ns1" "ldp1",
            sampleBackendOf "ingress-2" "ns1" "ldp1"] }).ldps ∧
     buildPolicy (sampleEnv RangeOrder.insertion) sampleBuilder
        (sampleBackendOf "ingress-2" "ns1" "ldp1") samplePolicyNs1 ∉
      (getLoadDistributionPolicies (sampleEnv RangeOrder.insertion) sampleBuilder
        { backendIds := [sampleBackend "ns2" "ldp1", sampleBackend "ns1" "ldp1",
            sampleBackendOf "ingress-2" "ns1" "ldp1"] }).ldps) := by
  decide

/-- C5 (amended): when the name synthesizer keeps apart the namespace/name pairs of the
policy-bound backends of the set, no two policies that `getLoadDistributionPolicies`
returns on an empty cache carry the same synthesized name; so a synthesized name is
carried by at most one output policy, and the name of a policy-bound backend whose
fetch succeeds is carried by exactly one when every policy-bound backend that
references the same bare policy name is in its namespace (the map of the loop is keyed
by the bare policy name). -/
theorem getLoadDistributionPolicies_names_unique (env : Env) (c : appGwConfigBuilder)
    (cbCtx : ConfigBuilderContext) (h : c.mem.loadDistributionPolicies = none)
    (hinj : synthesizedNamesDistinct env (newBackendIdsFiltered cbCtx)) :
    ((getLoadDistributionPolicies env c cbCtx).ldps.map (fun p => p.Name)).Nodup ∧
    (∀ ns name, ((getLoadDistributionPolicies env c cbCtx).ldps.map (fun p => p.Name)).count
      (env.generateLoadDistributionName ns name) ≤ 1) ∧
    (∀ b ldp, b ∈ newBackendIdsFiltered cbCtx → env.isLDPBackend b = true →
      env.GetLoadDistributionPolicy b.Namespace b.Backend.Resource.Name = Except.ok ldp →
      (∀ b2 ∈ newBackendIdsFiltered cbCtx, env.isLDPBackend b2 = true →
        b2.Backend.Resource.Name = b.Backend.Resource.Name → b2.Namespace = b.Namespace) →
      ((getLoadDistributionPolicies env c cbCtx).ldps.map (fun p => p.Name)).count
        (env.generateLoadDistributionName b.Namespace b.Backend.Resource.Name) = 1) := by
  obtain ⟨ws, hnd, hmem, hcover, hl⟩ := (output_winners env c cbCtx h).1
  have hnames : (getLoadDistributionPolicies env c cbCtx).ldps.map (fun p => p.Name) =
      ws.map (fun w : backendIdentifier × v1.LoadDistributionPolicy =>
        env.generateLoadDistributionName w.1.Namespace w.1.Backend.Resource.Name) := by
    rw [hl, List.map_map]
    rfl
  have hnodup : ((getLoadDistributionPolicies env c cbCtx).ldps.map
      (fun p => p.Name)).Nodup := by
    rw [hnames]
    apply List.Nodup.map_on _ (List.Nodup.of_map _ hnd)
    intro x hx y hy hxy
    obtain ⟨hx1, hx2, _⟩ := hmem x hx
    obtain ⟨hy1, hy2, _⟩ := hmem y hy
    exact List.inj_on_of_nodup_map hnd hx hy (hinj x.1 hx1 y.1 hy1 hx2 hy2 hxy).2
  refine ⟨hnodup, fun ns name => List.nodup_iff_count_le_one.1 hnodup _, ?_⟩
  intro b ldp hb hlb hf hsame
  apply List.count_eq_one_of_mem hnodup
  rw [hnames]
  obtain ⟨w, hw, hwn⟩ := List.mem_map.1 (hcover b ldp hb hlb hf)
  obtain ⟨hw1, hw2, _⟩ := hmem w hw
  refine List.mem_map.2 ⟨w, hw, ?_⟩
  show env.generateLoadDistributionName w.1.Namespace w.1.Backend.Resource.Name =
    env.generateLoadDistributionName b.Namespace b.Backend.Resource.Name
  rw [hwn, hsame w.1 hw1 hw2 hwn]

/-- On the sample build four backends reference `ldp1` from two namespaces and `ldp0`:
the names of the synthesizer are apart and the output names are pairwise distinct. -/
theorem getLoadDistributionPolicies_names_unique_witness :
    sampleBuilder.mem.loadDistributionPolicies = none ∧
    synthesizedNamesDistinct (sampleEnv RangeOrder.insertion)
      [sampleBackend "ns1" "ldp1", sampleBackendOf "ingress-2" "ns1" "ldp1",
        sampleBackend "ns2" "ldp1", sampleBackend "ns1" "ldp0"] ∧
    ((getLoadDistributionPolicies (sampleEnv RangeOrder.insertion) sampleBuilder
      { backendIds := [sampleBackend "ns1" "ldp1", sampleBackendOf "ingress-2" "ns1" "ldp1",
          sampleBackend "ns2" "ldp1", sampleBackend "ns1" "ldp0"] }).ldps.map
        (fun p => p.Name)).Nodup ∧
    (getLoadDistributionPolicies (sampleEnv RangeOrder.insertion) sampleBuilder
      { backendIds := [sampleBackend "ns1" "ldp1", sampleBackendOf "ingress-2" "ns1" "ldp1",
          sampleBackend "ns2" "ldp1", sampleBackend "ns1" "ldp0"] }).ldps.map
        (fun p => p.Name) = ["ldp-ns1-ldp1", "ldp-ns1-ldp0"] :=
  ⟨rfl, by unfold synthesizedNamesDistinct; decide,
    (getLoadDistributionPolicies_names_unique (sampleEnv RangeOrder.insertion) sampleBuilder
      { backendIds := [sampleBackend "ns1" "ldp1", sampleBackendOf "ingress-2" "ns1" "ldp1",
          sampleBackend "ns2" "ldp1", sampleBackend "ns1" "ldp0"] } rfl
      (by unfold synthesizedNamesDistinct; decide)).1,
    by decide⟩

/-! ## Claims on the calls that can panic -/

theorem go_getTargets_populated (env : Env) (c : appGwConfigBuilder)
    (backendID : backendIdentifier) (k8sLDP : v1.LoadDistributionPolicy) :
    Go.getTargets env c.toGo backendID k8sLDP =
      Except.ok (getTargets env c backendID k8sLDP) := rfl

theorem go_step_populated (env : Env) (c : appGwConfigBuilder) (st : LoopState)
    (b : backendIdentifier) :
    Go.step env c.toGo st b = Except.ok (getLoadDistributionPoliciesStep env c st b) := by
  unfold Go.step
  rcases step_cases env c st b with ⟨hs, hc⟩ | ⟨e, hl, hh, hf, hs⟩ | ⟨ldp, hl, hh, hf, hs⟩
  · rw [hs]
    rcases hc with hc | hc
    · simp [hc]
    · by_cases hl : env.isLDPBackend b = true
      · simp [hl, hc]
      · simp [hl]
  · rw [hs]
    simp [hl, hh, hf]
  · rw [hs]
    simp [hl, hh, hf, go_getTargets_populated, buildPolicy]

theorem go_loop_populated (env : Env) (c : appGwConfigBuilder) (bs : List backendIdentifier)
    (st : LoopState) :
    Go.loop env c.toGo bs st = Except.ok (getLoadDistributionPoliciesLoop env c bs st) := by
  induction bs generalizing st with
  | nil => rfl
  | cons b rest ih =>
    rw [loop_cons]
    unfold Go.loop
    rw [go_step_populated]
    exact ih _

theorem go_getLoadDistributionPolicies_populated (env : Env) (c : appGwConfigBuilder)
    (cbCtx : ConfigBuilderContext) :
    Go.getLoadDistributionPolicies env c.toGo cbCtx =
      Except.ok
        { ldps := (getLoadDistributionPolicies env c cbCtx).ldps
          receiver := (getLoadDistributionPolicies env c cbCtx).receiver.toGo
          s := (getLoadDistributionPolicies env c cbCtx).c.toGo
          trace := (getLoadDistributionPolicies env c cbCtx).trace } := by
  unfold Go.getLoadDistributionPolicies
  cases h : c.mem.loadDistributionPolicies with
  | some cached =>
    rw [getLoadDistributionPolicies_hit env c cbCtx cached h]
    simp [appGwConfigBuilder.toGo, h]
  | none =>
    rw [getLoadDistributionPolicies_miss env c cbCtx h]
    have hl := go_loop_populated env c (newBackendIdsFiltered cbCtx) LoopState.initial
    simp only [LoopState.initial] at hl
    simp only [appGwConfigBuilder.toGo, h]
    simp only [appGwConfigBuilder.toGo, h] at hl
    rw [hl]
    cases hp : c.memByPointer <;> simp [LoopState.initial, h, hp]

theorem go_LoadDistributionPolicy_populated (env : Env) (c : appGwConfigBuilder)
    (cbCtx : ConfigBuilderContext) :
    Go.LoadDistributionPolicy env c.toGo cbCtx =
      Except.ok
        { err := none
          s := (LoadDistributionPolicy env c cbCtx).c.toGo
          trace := (LoadDistributionPolicy env c cbCtx).trace } := by
  unfold Go.LoadDistributionPolicy
  rw [go_getLoadDistributionPolicies_populated]
  simp [appGwConfigBuilder.toGo, LoadDistributionPolicy]

theorem go_populated_eq (s : Go.Builder) (g : ApplicationGateway)
    (m : List (backendIdentifier × serviceBackendPortPair))
    (hp : s.properties = some g) (hm : s.serviceBackendPairsByBackend = some m) :
    s = ({ appGw := g
           mem := { loadDistributionPolicies := s.loadDistributionPolicies
                    serviceBackendPairsByBackend := m }
           memByPointer := s.memByPointer } : appGwConfigBuilder).toGo := by
  cases s
  simp only [appGwConfigBuilder.toGo] at *
  simp [hp, hm]

theorem go_LoadDistributionPolicy_err_nil (env : Env) (s : Go.Builder)
    (cbCtx : ConfigBuilderContext) (r : Go.BuildResult)
    (h : Go.LoadDistributionPolicy env s cbCtx = Except.ok r) : r.err = none := by
  unfold Go.LoadDistributionPolicy at h
  cases hg : Go.getLoadDistributionPolicies env s cbCtx with
  | error p => rw [hg] at h; cases h
  | ok r1 =>
    rw [hg] at h
    cases hprop : r1.s.properties with
    | none => simp [hprop] at h
    | some g =>
      simp only [hprop] at h
      cases h
      rfl

/-- With a nil pointer to the port map, a policy-bound backend and a successful fetch,
`LoadDistributionPolicy` panics at line 78 and returns nothing; with a nil pointer to
the object written at line 25 it panics there. -/
theorem LoadDistributionPolicy_panics_on_nil_pointer :
    Go.LoadDistributionPolicy (sampleEnv RangeOrder.insertion) sampleBuilderNilPortMap
      { backendIds := [sampleBackend "ns1" "ldp1"] } = Except.error Panic.nilPortMap ∧
    Go.LoadDistributionPolicy (sampleEnv RangeOrder.insertion) sampleBuilderNilProperties
      { backendIds := [sampleBackend "ns1" "ldp1"] } = Except.error Panic.nilProperties :=
  ⟨rfl, rfl⟩

/-- C8 (amended): `LoadDistributionPolicy` never returns an error.  When the pointer to
the port map and the pointer to the object written at line 25 are not nil, then for
every backend set, every policy store and every state of the policy cache the call
returns, its error is nil and the policy list of the gateway is set to a sequence, the
empty one when the cache is empty and every fetch returns an error; and in every state
in which the call returns, its error is nil. -/
theorem LoadDistributionPolicy_never_errs (env : Env) (s : Go.Builder)
    (cbCtx : ConfigBuilderContext) (g : ApplicationGateway)
    (m : List (backendIdentifier × serviceBackendPortPair))
    (hp : s.properties = some g) (hm : s.serviceBackendPairsByBackend = some m) :
    (∃ r written,
      Go.LoadDistributionPolicy env s cbCtx = Except.ok r ∧ r.err = none ∧
      r.s.properties = some { LoadDistributionPolicies := some written } ∧
      ((∀ ns name, ∃ e, env.GetLoadDistributionPolicy ns name = Except.error e) →
        s.loadDistributionPolicies = none → written = [])) ∧
    (∀ (s2 : Go.Builder) (r2 : Go.BuildResult),
      Go.LoadDistributionPolicy env s2 cbCtx = Except.ok r2 → r2.err = none) := by
  refine ⟨?_, fun s2 r2 h2 => go_LoadDistributionPolicy_err_nil env s2 cbCtx r2 h2⟩
  have hs := go_populated_eq s g m hp hm
  have hrun := go_LoadDistributionPolicy_populated env
    ({ appGw := g
       mem := { loadDistributionPolicies := s.loadDistributionPolicies
                serviceBackendPairsByBackend := m }
       memByPointer := s.memByPointer } : appGwConfigBuilder) cbCtx
  rw [← hs] at hrun
  refine ⟨_, _, hrun, rfl, rfl, ?_⟩
  intro hfail hmiss
  have hl := ldps_nil_of_all_fail env
    ({ appGw := g
       mem := { loadDistributionPolicies := s.loadDistributionPolicies
                serviceBackendPairsByBackend := m }
       memByPointer := s.memByPointer } : appGwConfigBuilder) cbCtx hfail hmiss
  simp [hl]

/-- On the sample builder, whose pointers are populated, the call returns the nil
error, on the sample store and on the store that fails on every fetch. -/
theorem LoadDistributionPolicy_never_errs_witness :
    sampleBuilder.toGo.properties = some sampleBuilder.appGw ∧
    sampleBuilder.toGo.serviceBackendPairsByBackend =
      some sampleBuilder.mem.serviceBackendPairsByBackend ∧
    (∃ r written,
      Go.LoadDistributionPolicy (failingEnv RangeOrder.insertion) sampleBuilder.toGo
        { backendIds := [sampleBackend "ns1" "ldp1"] } = Except.ok r ∧ r.err = none ∧
      r.s.properties = some { LoadDistributionPolicies := some written } ∧
      ((∀ ns name, ∃ e, (failingEnv RangeOrder.insertion).GetLoadDistributionPolicy ns name
          = Except.error e) →
        sampleBuilder.toGo.loadDistributionPolicies = none → written = [])) :=
  ⟨rfl, rfl,
    (LoadDistributionPolicy_never_errs (failingEnv RangeOrder.insertion) sampleBuilder.toGo
      { backendIds := [sampleBackend "ns1" "ldp1"] } sampleBuilder.appGw
      sampleBuilder.mem.serviceBackendPairsByBackend rfl rfl).1⟩

end Appgw
